import Mathlib

/-!
# Engine console: command tokenizer, command dispatch and line editor

A shallow embedding of `Code/Engine/Input/Console.cpp`.

* C strings and `std::string` values are lists of `CChar` (the integer value of a `char`).
* The console object, together with the global flag `g_isQuitting`, is the record `Console`;
  every member function becomes a function on that record.
* What `Console.cpp` takes from `Console.hpp` and from other translation units (the constant
  `MAX_LINE_LENGTH`, `std::hash`, the registry filled by static registration and the bodies of
  the handlers defined elsewhere) is gathered in `Env`.
* Seconds are rationals: the blink timer is followed in exact arithmetic.
-/

namespace Engine

/-! ## Characters and strings -/

/-- A C `char`, kept as its integer value. -/
abbrev CChar := Int

/-- The characters of a string literal. -/
def cstr (s : String) : List CChar := s.toList.map (fun ch => Int.ofNat ch.toNat)

/-- What the C library sees behind `std::string::c_str()`: the characters before the
first NUL. -/
def c_str (s : List CChar) : List CChar := s.takeWhile (fun ch => ch != 0)

/-- The `::tolower` of the "C" locale. -/
def tolower (ch : CChar) : CChar := if 65 ≤ ch ∧ ch ≤ 90 then ch + 32 else ch

/-- The tokens that successive calls `strtok_s(..., " ", &context)` return on a C string:
the maximal runs of characters other than the space, in order. `token` holds the
characters of the run being read. -/
def strtok_all : List CChar → List CChar → List (List CChar)
  | [], token => if token = [] then [] else [token]
  | ch :: rest, token =>
    if ch = 32 then
      if token = [] then strtok_all rest [] else token :: strtok_all rest []
    else strtok_all rest (token ++ [ch])

/-- The result of `std::string::find(" ")`: the index of the first space, `none` for `npos`. -/
def find_space : List CChar → Option Nat
  | [] => none
  | ch :: rest => if ch = 32 then some 0 else (find_space rest).map (fun pos => pos + 1)

/-- The expression `s.substr(s.find(" ") + 1)`; `npos + 1` wraps around to `0`. -/
def substr_after_find (s : List CChar) : List CChar :=
  match find_space s with
  | some pos => s.drop (pos + 1)
  | none => s.drop 0

/-! ## Command -/

/-- The members of `Command`. -/
structure Command where
  m_fullCommandStr : List CChar
  m_fullArgsString : List CChar
  m_commandName : List CChar
  m_argsList : List (List CChar)
deriving DecidableEq

/-- The constructor `Command::Command(std::string fullCommandStr)`, named `new` here. -/
def Command.new (fullCommandStr : List CChar) : Command :=
  match strtok_all (c_str fullCommandStr) [] with
  | [] =>
    { m_fullCommandStr := fullCommandStr
      m_fullArgsString := []
      m_commandName := cstr "INVALID_COMMAND"
      m_argsList := [] }
  | token :: rest =>
    { m_fullCommandStr := fullCommandStr
      m_fullArgsString := if rest = [] then [] else substr_after_find fullCommandStr
      m_commandName := token.map tolower
      m_argsList := rest }

/-- Modelled from the spec: `Command::HasArgs` is defined in `Console.hpp`, which is not
among the sources. The command takes exactly `argNumber` arguments (`help` separates
"no argument" from "one argument" with it). -/
def Command.HasArgs (args : Command) (argNumber : Nat) : Bool :=
  args.m_argsList.length == argNumber

/-- Modelled from the spec: `Command::GetStringArgument` is defined in `Console.hpp`, which
is not among the sources. It is the positional argument of that index. -/
def Command.GetStringArgument (args : Command) (argNumber : Nat) : List CChar :=
  args.m_argsList.getD argNumber []

/-- The number written by the leading decimal digits of a string, after `acc`. -/
def parseDigits : List CChar → Nat → Nat
  | [], acc => acc
  | ch :: rest, acc =>
    if 48 ≤ ch ∧ ch ≤ 57 then parseDigits rest (acc * 10 + (ch - 48).toNat) else acc

/-- A value stored in a 32-bit `int`. -/
def toInt32 (z : Int) : Int := (z + 2 ^ 31) % 2 ^ 32 - 2 ^ 31

/-- Modelled from the spec: `Command::GetIntArgument` is defined in `Console.hpp`, which is
not among the sources. It is the number written in the argument of that index (an
optional minus sign, then decimal digits), as an `int`. -/
def Command.GetIntArgument (args : Command) (argNumber : Nat) : Int :=
  let text := args.m_argsList.getD argNumber []
  if text.head? = some 45 then toInt32 (-(parseDigits text.tail 0 : Int))
  else toInt32 (parseDigits text 0)

/-! ## Console state -/

/-- The functions a command name can be registered with: the handlers of `Console.cpp`
that depend on the console alone, and `other id` for every other function pointer
(`help`, `changefont` and the commands of the rest of the engine), whose body is
supplied by `Env.other`. -/
inductive Handler where
  | clear
  | quit
  | runfor
  | other (id : Nat)
deriving DecidableEq

/-- The colours `Console.cpp` prints with. -/
inductive RGBA where
  | GRAY
  | MAROON
  | RED
deriving DecidableEq

/-- One entry of the console history. -/
structure ColoredText where
  text : List CChar
  color : RGBA
deriving DecidableEq

/-- The data members of `Console` that `Update`, `ParseKey` and `RunCommand` use, the global
`g_isQuitting`, and the flag `outOfBounds`, which is not a member: it is raised by the first
access to `m_currentLine` or `m_commandHistory` outside the allocation (from then on the
program's behaviour is undefined). `m_cursorPointer` is kept as its offset from
`m_currentLine`. -/
structure Console where
  m_currentLine : List CChar
  m_cursorPointer : Nat
  m_isActive : Bool
  m_isCursorShowing : Bool
  m_characterAtCursor : CChar
  m_timeSinceCursorBlink : ℚ
  m_consoleHistory : List ColoredText
  m_commandHistory : List (List CChar)
  m_commandHistoryIndex : Nat
  g_isQuitting : Bool
  outOfBounds : Bool
deriving DecidableEq

/-- What `Console.cpp` takes from outside: the constant `MAX_LINE_LENGTH` of `Console.hpp`,
`std::hash<std::string>`, the registry `g_consoleCommands` as static registration left it
(key and function pointer, in key order), and the bodies of the handlers that are not
modelled here. -/
structure Env where
  MAX_LINE_LENGTH : Nat
  hash : List CChar → Nat
  g_consoleCommands : List (Nat × Handler)
  other : Nat → Command → Console → Console

/-- The registry part of `Console::RegisterCommand`: `emplace` keeps an entry that is
already stored under the hash. -/
def Env.RegisterCommand (env : Env) (commandName : List CChar) (consoleFunction : Handler) :
    Env :=
  match env.g_consoleCommands.lookup (env.hash commandName) with
  | some _ => env
  | none =>
    { env with
      g_consoleCommands := env.g_consoleCommands ++ [(env.hash commandName, consoleFunction)] }

/-- `CURSOR_CHARACTER`, the bar `|`. -/
def CURSOR_CHARACTER : CChar := 0x7C

/-- `CURSOR_BLINK_RATE_SECONDS`. -/
def CURSOR_BLINK_RATE_SECONDS : ℚ := 1 / 2

/-- The constructor `Console::Console()`, named `new` here. -/
def Console.new (env : Env) : Console :=
  { m_currentLine := List.replicate env.MAX_LINE_LENGTH 0
    m_cursorPointer := 0
    m_isActive := false
    m_isCursorShowing := false
    m_characterAtCursor := CURSOR_CHARACTER
    m_timeSinceCursorBlink := 0
    m_consoleHistory := []
    m_commandHistory := []
    m_commandHistoryIndex := 0
    g_isQuitting := false
    outOfBounds := false }

/-- The method `Console::ActivateConsole`. -/
def Console.ActivateConsole (c : Console) : Console := { c with m_isActive := true }

/-- The method `Console::DeactivateConsole`. -/
def Console.DeactivateConsole (c : Console) : Console := { c with m_isActive := false }

/-- The method `Console::ToggleConsole`. -/
def Console.ToggleConsole (c : Console) : Console :=
  if c.m_isActive then c.DeactivateConsole else c.ActivateConsole

/-- The method `Console::ClearConsoleHistory`. -/
def Console.ClearConsoleHistory (c : Console) : Console := { c with m_consoleHistory := [] }

/-- The method `Console::PrintLine`. -/
def Console.PrintLine (c : Console) (consoleLine : List CChar) (color : RGBA) : Console :=
  { c with m_consoleHistory := c.m_consoleHistory ++ [⟨consoleLine, color⟩] }

/-! ## Command dispatch -/

/-- What one call of `Console::RunCommand` did: the value it returned, the console it left,
the handler it called with the command it passed, and the handler calls made by the
`RunCommand` calls inside that handler, in order. -/
structure RunResult where
  found : Bool
  console : Console
  invoked : Option (Handler × Command)
  nested : List (Handler × Command)

/-- The `for` loop of `runfor`: `count` calls of `RunCommand(commandName)`, here `rerun`. -/
def runforLoop (rerun : Console → RunResult) :
    Nat → Console → List (Handler × Command) → Console × List (Handler × Command)
  | 0, c, calls => (c, calls)
  | count + 1, c, calls =>
    let r := rerun c
    runforLoop rerun count r.console (calls ++ r.invoked.toList ++ r.nested)

set_option linter.unusedVariables false in
/-- The method `Console::RunCommand`, with the bodies of the `CONSOLE_COMMAND`s `clear`,
`quit` and `runfor` at the call through the function pointer. -/
def Console.RunCommand (env : Env) (commandLine : List CChar) (c : Console) : RunResult :=
  let c1 := { c with
    m_commandHistory := c.m_commandHistory ++ [commandLine]
    m_commandHistoryIndex := c.m_commandHistory.length + 1 }
  let command := Command.new commandLine
  match env.g_consoleCommands.lookup (env.hash command.m_commandName) with
  | some .clear =>
    ⟨true, c1.ClearConsoleHistory, some (.clear, command), []⟩
  | some .quit =>
    ⟨true, { c1.PrintLine (cstr "Saving and shutting down...") .RED with g_isQuitting := true },
      some (.quit, command), []⟩
  | some .runfor =>
    if h : command.HasArgs 2 = true then
      let numberOfTimesToRun := command.GetIntArgument 0
      let commandName := command.GetStringArgument 1
      let r := runforLoop (fun c2 => Console.RunCommand env commandName c2)
        numberOfTimesToRun.toNat c1 []
      ⟨true, r.1, some (.runfor, command), r.2⟩
    else
      ⟨true, c1.PrintLine (cstr "runfor <# of Times to Run> <command name>") .GRAY,
        some (.runfor, command), []⟩
  | some (.other id) =>
    ⟨true, env.other id command c1, some (.other id, command), []⟩
  | none => ⟨false, c1, none, []⟩
termination_by commandLine.length
decreasing_by
  have hlength : ∀ (s token : List CChar),
      ((strtok_all s token).map List.length).sum + (strtok_all s token).length
        ≤ s.length + token.length + 1 := by
    intro s
    induction s with
    | nil =>
      intro token
      by_cases hnil : token = [] <;> simp [strtok_all, hnil]
    | cons ch rest ih =>
      intro token
      by_cases h32 : ch = 32
      · have := ih []
        by_cases hnil : token = [] <;> simp [strtok_all, h32, hnil] at this ⊢ <;> omega
      · have := ih (token ++ [ch])
        simp [strtok_all, h32] at this ⊢
        omega
  have hc : ∀ s : List CChar, (c_str s).length ≤ s.length := by
    intro s
    unfold c_str
    induction s with
    | nil => simp
    | cons ch rest ih =>
      rw [List.takeWhile_cons]
      split
      · simpa using ih
      · simp
  have hc := hc commandLine
  have hlen := hlength (c_str commandLine) []
  have h2 : (Command.new commandLine).HasArgs 2 = true := h
  show ((Command.new commandLine).GetStringArgument 1).length < commandLine.length
  unfold Command.new at h2 ⊢
  cases htok : strtok_all (c_str commandLine) [] with
  | nil => simp [htok, Command.HasArgs] at h2
  | cons token rest =>
    rw [htok] at hlen
    simp only [htok, Command.HasArgs, Command.GetStringArgument] at h2 ⊢
    rcases rest with _ | ⟨a0, _ | ⟨a1, _ | ⟨a2, more⟩⟩⟩ <;> simp at h2
    simp at hlen ⊢
    omega

/-! ## Line editor -/

/-- The answers of `InputSystem::instance->WasKeyJustPressed` for the keys `ParseKey` asks
about during one call. -/
structure Keys where
  ESC : Bool
  BACKSPACE : Bool
  ENTER : Bool
  LEFT : Bool
  RIGHT : Bool
  UP : Bool
  DOWN : Bool
  HOME : Bool
  END : Bool
  DEL : Bool
deriving DecidableEq

/-- No key was just pressed. -/
def Keys.none : Keys := ⟨false, false, false, false, false, false, false, false, false, false⟩

/-- An access to `m_currentLine[index]`: outside the allocation it raises `outOfBounds`. -/
def Console.touch (c : Console) (index : Nat) : Console :=
  if index < c.m_currentLine.length then c else { c with outOfBounds := true }

/-- The value read from `m_currentLine[index]` (`0` where the allocation has no such slot). -/
def Console.peek (c : Console) (index : Nat) : CChar := c.m_currentLine.getD index 0

/-- The assignment `m_currentLine[index] = value`. -/
def Console.poke (c : Console) (index : Nat) (value : CChar) : Console :=
  { c.touch index with m_currentLine := c.m_currentLine.set index value }

/-- Modelled from the spec: `Console::IsEmpty` is defined in `Console.hpp`, which is not
among the sources. The buffer is empty: the line starts with the terminator. -/
def Console.IsEmpty (c : Console) : Bool := c.peek 0 == 0

/-- The call `memset(m_currentLine, 0x00, MAX_LINE_LENGTH)`. -/
def Console.memsetLine (env : Env) (c : Console) : Console :=
  { c with m_currentLine := List.replicate env.MAX_LINE_LENGTH 0 }

/-- The read behind `std::string(m_currentLine)`: it runs past the allocation when the buffer
holds no terminator. -/
def Console.touchString (c : Console) : Console :=
  if (0 : CChar) ∈ c.m_currentLine then c else { c with outOfBounds := true }

/-- The unsigned subtraction `a - b` of two `size_t` values (64 bits). -/
def size_t_sub (a b : Nat) : Nat := (a + 2 ^ 64 - b % 2 ^ 64) % 2 ^ 64

/-- The call `strcpy_s(m_currentLine, MAX_LINE_LENGTH, m_commandHistory[m_commandHistoryIndex].c_str())`
on the line just zeroed. Indexing the vector past its size, and a source that does not fit
(which `strcpy_s` refuses), raise `outOfBounds`. -/
def Console.strcpyFromHistory (env : Env) (c : Console) : Console :=
  let c1 :=
    if c.m_commandHistoryIndex < c.m_commandHistory.length then c
    else { c with outOfBounds := true }
  let source := c_str (c.m_commandHistory.getD c.m_commandHistoryIndex [])
  if source.length < env.MAX_LINE_LENGTH then
    { c1 with m_currentLine := source ++ 0 :: c1.m_currentLine.drop (source.length + 1) }
  else
    { c1 with
      m_currentLine := c1.m_currentLine.set 0 0
      outOfBounds := true }

/-- The `for` loop of the END branch: `count` iterations are left and the counter is `i`. -/
def Console.endLoop (c : Console) : Nat → Nat → Console
  | 0, _ => c
  | count + 1, i =>
    let currentIndex := c.m_cursorPointer + i
    let c1 := c.touch currentIndex
    if c1.peek currentIndex = 0 then { c1 with m_cursorPointer := currentIndex }
    else Console.endLoop c1 count (i + 1)

/-- The `for` loop of the DEL branch: `count` iterations are left and the counter is `i`. -/
def Console.delLoop (cursor : Nat) (c : Console) : Nat → Nat → Console
  | 0, _ => c
  | count + 1, i =>
    let currentIndex := cursor + i
    let nextIndex := currentIndex + 1
    let c1 := (c.touch nextIndex).poke currentIndex (c.peek nextIndex)
    if c1.peek nextIndex = 0 then c1 else Console.delLoop cursor c1 count (i + 1)

/-- The method `Console::ParseKey`. -/
def Console.ParseKey (env : Env) (keys : Keys) (currentChar : CChar) (c : Console) : Console :=
  let afterEsc : Console × Bool :=
    if keys.ESC = true then
      let c1 := c.poke c.m_cursorPointer c.m_characterAtCursor
      if c1.IsEmpty = true then (c1.DeactivateConsole, true)
      else (Console.memsetLine env { c1 with m_cursorPointer := 0 }, false)
    else (c, false)
  let c := afterEsc.1
  if afterEsc.2 = true then c
  else if currentChar > 0x1F ∧ c.m_cursorPointer ≠ env.MAX_LINE_LENGTH then
    { c.poke c.m_cursorPointer currentChar with m_cursorPointer := c.m_cursorPointer + 1 }
  else if keys.BACKSPACE = true ∧ c.m_cursorPointer ≠ 0 then
    let c1 := c.poke c.m_cursorPointer c.m_characterAtCursor
    let c2 := { c1 with m_cursorPointer := c1.m_cursorPointer - 1 }
    c2.poke c2.m_cursorPointer 0
  else if keys.ENTER = true then
    let c1 := c.poke c.m_cursorPointer c.m_characterAtCursor
    if c1.IsEmpty = true then c1.DeactivateConsole
    else
      let currentLine := c_str c1.m_currentLine
      let c2 := c1.touchString.PrintLine currentLine .GRAY
      let r := c2.RunCommand env currentLine
      let c3 :=
        if r.found = true then r.console
        else r.console.PrintLine (cstr "Invalid Command.") .MAROON
      Console.memsetLine env { c3 with m_cursorPointer := 0 }
  else if keys.LEFT = true ∧ c.m_cursorPointer ≠ 0 then
    let c1 := c.poke c.m_cursorPointer c.m_characterAtCursor
    { c1 with m_cursorPointer := c1.m_cursorPointer - 1 }
  else if keys.RIGHT = true ∧ c.m_cursorPointer ≠ env.MAX_LINE_LENGTH then
    let c1 := c.poke c.m_cursorPointer c.m_characterAtCursor
    { c1 with m_cursorPointer := c1.m_cursorPointer + 1 }
  else if keys.UP = true ∧ c.m_commandHistoryIndex > 0 then
    let c1 := Console.memsetLine env { c with m_cursorPointer := 0 }
    Console.strcpyFromHistory env { c1 with m_commandHistoryIndex := c1.m_commandHistoryIndex - 1 }
  else if keys.DOWN = true ∧ c.m_commandHistoryIndex < size_t_sub c.m_commandHistory.length 1 then
    let c1 := Console.memsetLine env { c with m_cursorPointer := 0 }
    Console.strcpyFromHistory env { c1 with m_commandHistoryIndex := c1.m_commandHistoryIndex + 1 }
  else if keys.HOME = true then
    let c1 := c.poke c.m_cursorPointer c.m_characterAtCursor
    { c1 with m_cursorPointer := 0 }
  else if keys.END = true then
    let c1 := c.poke c.m_cursorPointer c.m_characterAtCursor
    c1.endLoop env.MAX_LINE_LENGTH 0
  else if keys.DEL = true then
    let maxLengthInFrontOfCursor := env.MAX_LINE_LENGTH - c.m_cursorPointer
    Console.delLoop c.m_cursorPointer c maxLengthInFrontOfCursor 0
  else c

/-- What the input system reports during one `Update`: the keys just pressed and the value of
`GetLastPressedChar()`. -/
structure Input where
  keys : Keys
  lastPressedChar : CChar
deriving DecidableEq

/-- Lines 47 to 50 of `Console::Update`: the character under the cursor is saved unless it
is the glyph. -/
def Console.saveCharacterAtCursor (c : Console) : Console :=
  let c2 := c.touch c.m_cursorPointer
  if c2.peek c2.m_cursorPointer ≠ CURSOR_CHARACTER then
    { c2 with m_characterAtCursor := c2.peek c2.m_cursorPointer }
  else c2

/-- Lines 55 to 60 of `Console::Update`: when the blink is due, the glyph is toggled into or
out of the slot under the cursor. -/
def Console.blinkCursor (c : Console) : Console :=
  if c.m_timeSinceCursorBlink ≥ CURSOR_BLINK_RATE_SECONDS then
    let c5 := { c with
      m_timeSinceCursorBlink := 0
      m_isCursorShowing := !c.m_isCursorShowing }
    c5.poke c5.m_cursorPointer
      (if c5.m_isCursorShowing = true then CURSOR_CHARACTER else c5.m_characterAtCursor)
  else c

/-- The method `Console::Update`. -/
def Console.Update (env : Env) (input : Input) (deltaSeconds : ℚ) (c : Console) : Console :=
  if c.m_isActive = true then
    let c1 := { c with m_timeSinceCursorBlink := c.m_timeSinceCursorBlink + deltaSeconds }
    let c3 := c1.saveCharacterAtCursor
    let c4 := c3.ParseKey env input.keys input.lastPressedChar
    c4.blinkCursor
  else c

/-- The consoles that a run of the program can hold: the constructed one, and what
activation, deactivation and `Update` make of them. -/
inductive Console.Reachable (env : Env) : Console → Prop where
  | constructed : Console.Reachable env (Console.new env)
  | activate (c : Console) : Console.Reachable env c → Console.Reachable env c.ActivateConsole
  | deactivate (c : Console) :
      Console.Reachable env c → Console.Reachable env c.DeactivateConsole
  | update (c : Console) (input : Input) (deltaSeconds : ℚ) :
      Console.Reachable env c → Console.Reachable env (c.Update env input deltaSeconds)

/-! ## File names (`Code/Engine/Audio/AudioMetadataUtils.cpp`) -/

/-- The result of `std::string::rfind(ch)`: the index of the last occurrence of `ch`, or
`npos`, the largest `size_t`, here `SIZE_MAX`. -/
def rfind (SIZE_MAX : Nat) (s : List CChar) (ch : CChar) : Nat :=
  match s.reverse.indexOf? ch with
  | some fromEnd => s.length - 1 - fromEnd
  | none => SIZE_MAX

/-- A value stored in an `unsigned` (32 bits). -/
def toUnsigned (n : Nat) : Nat := n % 2 ^ 32

/-- The call `s.substr(pos, count)` for `pos` not beyond the length of `s`. -/
def substr (s : List CChar) (pos count : Nat) : List CChar := (s.drop pos).take count

/-- The function `GetFileName`; `SIZE_MAX` is the largest `size_t` of the platform. -/
def GetFileName (SIZE_MAX : Nat) (filePath : List CChar) : List CChar :=
  let extensionPos := toUnsigned (rfind SIZE_MAX filePath 46)
  if extensionPos ≠ SIZE_MAX ∧ extensionPos ≠ filePath.length then
    let directoryPos := toUnsigned (rfind SIZE_MAX filePath 92)
    if directoryPos ≠ SIZE_MAX ∧ directoryPos ≠ filePath.length then
      substr filePath (toUnsigned (directoryPos + 1)) (toUnsigned (extensionPos + 1))
    else
      let directoryPos := toUnsigned (rfind SIZE_MAX filePath 47)
      if directoryPos ≠ SIZE_MAX ∧ directoryPos ≠ filePath.length then
        substr filePath (toUnsigned (directoryPos + 1)) (toUnsigned (extensionPos + 1))
      else cstr "ERROR"
  else cstr "ERROR"

/-! ## Widgets (`Code/Engine/UI/WidgetBase.cpp`)

Coordinates and opacities are rationals: the float computations are followed in exact
arithmetic. A widget is a tree; the pointer `m_parent` is not stored, and the functions that
walk it take the chain of ancestors, nearest first. A pointer to a widget of a tree is the
path of child indices that leads to it. -/

/-- A `Vector2`. -/
structure Vector2 where
  x : ℚ
  y : ℚ
deriving DecidableEq

/-- `Vector2::ZERO`. -/
def Vector2.ZERO : Vector2 := ⟨0, 0⟩

/-- `Vector2::ONE`. -/
def Vector2.ONE : Vector2 := ⟨1, 1⟩

/-- An `AABB2`. -/
structure AABB2 where
  mins : Vector2
  maxs : Vector2
deriving DecidableEq

/-- Modelled from the spec: `AABB2::IsPointOnOrInside` is defined outside the sources. The
point lies within the bounds, edges included. -/
def AABB2.IsPointOnOrInside (bounds : AABB2) (point : Vector2) : Bool :=
  decide (bounds.mins.x ≤ point.x ∧ point.x ≤ bounds.maxs.x ∧
    bounds.mins.y ≤ point.y ∧ point.y ≤ bounds.maxs.y)

/-- The widget states that `WidgetBase.cpp` names. -/
inductive WidgetState where
  | ACTIVE_WIDGET_STATE
  | DISABLED_WIDGET_STATE
  | HIDDEN_WIDGET_STATE
deriving DecidableEq

/-- A typed property value: a string, a `Vector2`, an `RGBA` (as its 32-bit value) or a
float. -/
inductive PropertyValue where
  | string (value : String)
  | vector2 (value : Vector2)
  | rgba (value : Nat)
  | float (value : ℚ)
deriving DecidableEq

/-- Modelled from the spec: the property bag `NamedProperties` is defined outside the sources.
It maps a name to one typed value. -/
abbrev NamedProperties := List (String × PropertyValue)

/-- Modelled from the spec: `NamedProperties::Set` stores the value under the name, in place
of the value the name had. -/
def NamedProperties.Set : NamedProperties → String → PropertyValue → NamedProperties
  | [], name, value => [(name, value)]
  | (key, old) :: rest, name, value =>
    if key = name then (key, value) :: rest
    else (key, old) :: NamedProperties.Set rest name value

/-- Modelled from the spec: `NamedProperties::Get` finds the value stored under the name. -/
def NamedProperties.Get (bag : NamedProperties) (name : String) : Option PropertyValue :=
  bag.lookup name

/-- Modelled from the spec: `NamedProperties::Get<float>`; a name that holds no float reads
as 0. -/
def NamedProperties.GetFloat (bag : NamedProperties) (name : String) : ℚ :=
  match bag.Get name with
  | some (.float value) => value
  | _ => 0

/-- Modelled from the spec: `NamedProperties::Get<Vector2>`; a name that holds no vector
reads as `Vector2::ZERO`. -/
def NamedProperties.GetVector2 (bag : NamedProperties) (name : String) : Vector2 :=
  match bag.Get name with
  | some (.vector2 value) => value
  | _ => Vector2.ZERO

/-- Modelled from the spec: `NamedProperties::Get<RGBA>`; a name that holds no colour reads
as 0. -/
def NamedProperties.GetRGBA (bag : NamedProperties) (name : String) : Nat :=
  match bag.Get name with
  | some (.rgba value) => value
  | _ => 0

/-- The data members of `WidgetBase` that `WidgetBase.cpp` uses. `m_propertiesForState`
stands for the per-state bags of `WidgetBase.hpp`, which is not among the sources. -/
inductive WidgetBase where
  | mk (m_name : String) (m_propertiesForAllStates : NamedProperties)
      (m_propertiesForState : List (WidgetState × NamedProperties))
      (m_currentState : WidgetState) (m_bounds : AABB2) (m_children : List WidgetBase)

/-- The member `m_name`. -/
def WidgetBase.m_name : WidgetBase → String
  | .mk name _ _ _ _ _ => name

/-- The member `m_propertiesForAllStates`. -/
def WidgetBase.m_propertiesForAllStates : WidgetBase → NamedProperties
  | .mk _ properties _ _ _ _ => properties

/-- The per-state bags. -/
def WidgetBase.m_propertiesForState : WidgetBase → List (WidgetState × NamedProperties)
  | .mk _ _ properties _ _ _ => properties

/-- The member `m_currentState`. -/
def WidgetBase.m_currentState : WidgetBase → WidgetState
  | .mk _ _ _ state _ _ => state

/-- The member `m_bounds`. -/
def WidgetBase.m_bounds : WidgetBase → AABB2
  | .mk _ _ _ _ bounds _ => bounds

/-- The member `m_children`. -/
def WidgetBase.m_children : WidgetBase → List WidgetBase
  | .mk _ _ _ _ _ children => children

/-- Modelled from the spec: `WidgetBase::GetProperty<float>` is defined in `WidgetBase.hpp`,
which is not among the sources. It is the value of the current state's bag, or of the bag
for all states when the current state's bag has none. -/
def WidgetBase.GetPropertyFloat (w : WidgetBase) (name : String) : ℚ :=
  match (w.m_propertiesForState.lookup w.m_currentState).bind (fun bag => bag.Get name) with
  | some (.float value) => value
  | _ => w.m_propertiesForAllStates.GetFloat name

/-- The `while` loop of `WidgetBase::GetParentOpacities`, over the chain `m_parent`,
`m_parent->m_parent`, ... -/
def GetParentOpacitiesLoop : List WidgetBase → ℚ → ℚ
  | [], parentOpacities => parentOpacities
  | parent :: chain, parentOpacities =>
    GetParentOpacitiesLoop chain
      (parentOpacities * parent.m_propertiesForAllStates.GetFloat "Opacity")

/-- The method `WidgetBase::GetParentOpacities` of a widget with the given ancestors. -/
def WidgetBase.GetParentOpacities (ancestors : List WidgetBase) : ℚ :=
  GetParentOpacitiesLoop ancestors 1

/-- The value of `opacity` that `WidgetBase::Render` computes (lines 64 and 66) before it
scales the alpha of the two colours. -/
def WidgetBase.RenderOpacity (w : WidgetBase) (ancestors : List WidgetBase) : ℚ :=
  w.GetPropertyFloat "Opacity" * WidgetBase.GetParentOpacities ancestors

/-- The widget that a path of child indices leads to. -/
def WidgetBase.at? : WidgetBase → List Nat → Option WidgetBase
  | w, [] => some w
  | .mk _ _ _ _ _ children, index :: path =>
    match children[index]? with
    | some child => child.at? path
    | none => none

/-- The chain of `m_parent` pointers of the widget that a path leads to, nearest first. -/
def WidgetBase.ancestorsAt : WidgetBase → List Nat → List WidgetBase
  | _, [] => []
  | .mk name all perState state bounds children, index :: path =>
    match children[index]? with
    | some child => child.ancestorsAt path ++ [.mk name all perState state bounds children]
    | none => []

/-- The tree after `change` was carried out on the widget that a path leads to. -/
def WidgetBase.modifyAt (change : WidgetBase → WidgetBase) : WidgetBase → List Nat → WidgetBase
  | w, [] => change w
  | .mk name all perState state bounds children, index :: path =>
    match children[index]? with
    | some child =>
      .mk name all perState state bounds
        (children.set index (WidgetBase.modifyAt change child path))
    | none => .mk name all perState state bounds children

mutual
/-- The method `WidgetBase::SetHidden`. -/
def WidgetBase.SetHidden : WidgetBase → WidgetBase
  | .mk name all perState _ bounds children =>
    .mk name all perState WidgetState.HIDDEN_WIDGET_STATE bounds (SetHiddenChildren children)
/-- The `for` loop of `WidgetBase::SetHidden`. -/
def SetHiddenChildren : List WidgetBase → List WidgetBase
  | [] => []
  | child :: rest => child.SetHidden :: SetHiddenChildren rest
end

/-- The method `WidgetBase::IsClickable`. -/
def WidgetBase.IsClickable (w : WidgetBase) : Bool :=
  !(w.m_currentState == WidgetState.DISABLED_WIDGET_STATE ||
    w.m_currentState == WidgetState.HIDDEN_WIDGET_STATE)

mutual
/-- The method `WidgetBase::GetWidgetPointIsInside`: the path to the widget it returns,
`none` for `nullptr`. -/
def WidgetBase.GetWidgetPointIsInside (point : Vector2) : WidgetBase → Option (List Nat)
  | .mk _ _ _ _ bounds children =>
    match GetWidgetPointIsInsideChildren point children 0 with
    | some widget => some widget
    | none => if bounds.IsPointOnOrInside point = true then some [] else none
/-- The `for` loop of `WidgetBase::GetWidgetPointIsInside`, from the child of index `index`. -/
def GetWidgetPointIsInsideChildren (point : Vector2) :
    List WidgetBase → Nat → Option (List Nat)
  | [], _ => none
  | child :: rest, index =>
    match child.GetWidgetPointIsInside point with
    | some widget => some (index :: widget)
    | none => GetWidgetPointIsInsideChildren point rest (index + 1)
end

mutual
/-- The widgets of a tree with their paths, in the depth-first order that visits the children
of a widget, in declaration order, before the widget itself. -/
def WidgetBase.childrenFirst : WidgetBase → List (List Nat × WidgetBase)
  | .mk name all perState state bounds children =>
    childrenFirstOf children 0 ++ [([], .mk name all perState state bounds children)]
/-- The widgets of the subtrees of a run of children, the first of which has index `index`. -/
def childrenFirstOf : List WidgetBase → Nat → List (List Nat × WidgetBase)
  | [], _ => []
  | child :: rest, index =>
    (child.childrenFirst.map (fun entry => (index :: entry.1, entry.2)))
      ++ childrenFirstOf rest (index + 1)
end

/-- Modelled from the spec: the XML collaborator is defined outside the sources. The model
keeps the attributes of a node, by name. -/
structure XMLNode where
  attributes : List (String × String)

/-- Modelled from the spec: `XMLNode::getAttribute` gives the text of the attribute of that
name, `none` for the null pointer of an attribute the node does not have. -/
def XMLNode.getAttribute (node : XMLNode) (name : String) : Option String :=
  node.attributes.lookup name

/-- The functions `WidgetBase.cpp` calls that are defined outside the sources: the two
parsers `Vector2::CreateFromString` and `RGBA::CreateFromString`, `std::stof`, and the
virtual `RecalculateBounds`. -/
structure UIEnv where
  Vector2_CreateFromString : String → Vector2
  RGBA_CreateFromString : String → Nat
  stof : String → ℚ
  RecalculateBounds : WidgetBase → WidgetBase

/-- The method `WidgetBase::AddChild`; the back-reference `m_parent` is not stored. -/
def WidgetBase.AddChild (ui : UIEnv) (child : WidgetBase) : WidgetBase → WidgetBase
  | .mk name all perState state bounds children =>
    ui.RecalculateBounds
      (.mk name all perState state bounds (children ++ [ui.RecalculateBounds child]))

/-- The method `WidgetBase::BuildFromXMLNode`. `created` holds the widgets that
`UISystem::instance->CreateWidget` returns for the non-empty children of the node, in order.
The locals `bgColor` and `edgeColor` are only read after they were assigned from an
attribute, so their first values (lines 131 and 132) do not appear. -/
def WidgetBase.BuildFromXMLNode (ui : UIEnv) (node : XMLNode) (created : List WidgetBase) :
    WidgetBase → WidgetBase
  | .mk m_name all perState state bounds children =>
    let offset := all.GetVector2 "Offset"
    let all1 := match node.getAttribute "Padding" with
      | some paddingAttribute =>
        all.Set "Padding" (.vector2 (ui.Vector2_CreateFromString paddingAttribute))
      | none => all
    let offset1 := match node.getAttribute "Offset" with
      | some offsetAttribute => ui.Vector2_CreateFromString offsetAttribute
      | none => offset
    let offset2 := match node.getAttribute "HorizontalOffset" with
      | some horizontalOffset => { offset1 with x := ui.stof horizontalOffset }
      | none => offset1
    let offset3 := match node.getAttribute "VerticalOffset" with
      | some verticalOffset => { offset2 with y := ui.stof verticalOffset }
      | none => offset2
    let all2 := match node.getAttribute "BackgroundColor" with
      | some backgroundColorAttribute =>
        all1.Set "BackgroundColor" (.rgba (ui.RGBA_CreateFromString backgroundColorAttribute))
      | none => all1
    let all3 := match node.getAttribute "BorderColor" with
      | some borderColorAttribute =>
        all2.Set "BorderColor" (.rgba (ui.RGBA_CreateFromString borderColorAttribute))
      | none => all2
    let all4 := match node.getAttribute "BorderWidth" with
      | some borderWidthAttribute =>
        all3.Set "BorderWidth" (.float (ui.stof borderWidthAttribute))
      | none => all3
    let all5 := match node.getAttribute "OnClick" with
      | some onClickAttribute => all4.Set "OnClick" (.string onClickAttribute)
      | none => all4
    let all6 := match node.getAttribute "Name" with
      | some nameAttribute => all5.Set "Name" (.string nameAttribute)
      | none => all5
    let name := match node.getAttribute "Name" with
      | some nameAttribute => nameAttribute
      | none => m_name
    let all7 := match node.getAttribute "Opacity" with
      | some opacityAttribute => all6.Set "Opacity" (.float (ui.stof opacityAttribute))
      | none => all6
    let all8 := match node.getAttribute "Size" with
      | some sizeAttribute =>
        all7.Set "Size" (.vector2 (ui.Vector2_CreateFromString sizeAttribute))
      | none => all7
    let all9 := all8.Set "Offset" (.vector2 offset3)
    let all10 := all9.Set "Size" (.vector2 Vector2.ONE)
    created.foldl (fun widget child => widget.AddChild ui child)
      (.mk name all10 perState state bounds children)

/-- Modelled from the spec: `WidgetBase::GetBounds` is declared in `WidgetBase.hpp`, which is
not among the sources. It gives the current bounds of the widget, `m_bounds`. -/
def WidgetBase.GetBounds (w : WidgetBase) : AABB2 :=
  w.m_bounds

/-- The `for` loop of `WidgetBase::GetSmallestBoundsAroundChildren`. -/
def GetSmallestBoundsLoop : List WidgetBase → AABB2 → AABB2
  | [], smallestBounds => smallestBounds
  | child :: rest, smallestBounds =>
    let childBounds := child.GetBounds
    GetSmallestBoundsLoop rest
      ⟨⟨if childBounds.mins.x < smallestBounds.mins.x then childBounds.mins.x
          else smallestBounds.mins.x,
        if childBounds.mins.y < smallestBounds.mins.y then childBounds.mins.y
          else smallestBounds.mins.y⟩,
       ⟨if childBounds.maxs.x > smallestBounds.maxs.x then childBounds.maxs.x
          else smallestBounds.maxs.x,
        if childBounds.maxs.y > smallestBounds.maxs.y then childBounds.maxs.y
          else smallestBounds.maxs.y⟩⟩

/-- The method `WidgetBase::GetSmallestBoundsAroundChildren`. -/
def WidgetBase.GetSmallestBoundsAroundChildren (w : WidgetBase) : AABB2 :=
  let smallestBounds :=
    match w.m_children with
    | first :: _ => first.m_bounds
    | [] => ⟨Vector2.ZERO, Vector2.ZERO⟩
  GetSmallestBoundsLoop w.m_children smallestBounds

/-! ## Statement vocabulary -/

/-- Tokens joined by single spaces, with no leading or trailing space. -/
def joinWithSpaces : List (List CChar) → List CChar
  | [] => []
  | [token] => token
  | token :: next :: rest => token ++ 32 :: joinWithSpaces (next :: rest)

/-- A hash that tells short names apart. -/
def exampleHash (s : List CChar) : Nat := s.foldl (fun acc ch => acc * 256 + ch.toNat) 0

/-- A setting to evaluate the console in: lines of eight slots, and the commands `clear`,
`quit` and `runfor` registered. -/
def exampleEnv : Env :=
  (((Env.mk 8 exampleHash [] (fun _ _ c => c)).RegisterCommand (cstr "clear") Handler.clear
    ).RegisterCommand (cstr "quit") Handler.quit).RegisterCommand (cstr "runfor") Handler.runfor

/-- Only Enter was just pressed. -/
def Keys.pressENTER : Keys := { Keys.none with ENTER := true }

/-- Only Backspace was just pressed. -/
def Keys.pressBACKSPACE : Keys := { Keys.none with BACKSPACE := true }

/-- Only the left arrow was just pressed. -/
def Keys.pressLEFT : Keys := { Keys.none with LEFT := true }

/-- Only the right arrow was just pressed. -/
def Keys.pressRIGHT : Keys := { Keys.none with RIGHT := true }

/-- Only Home was just pressed. -/
def Keys.pressHOME : Keys := { Keys.none with HOME := true }

/-- Only End was just pressed. -/
def Keys.pressEND : Keys := { Keys.none with END := true }

/-- Only Delete was just pressed. -/
def Keys.pressDEL : Keys := { Keys.none with DEL := true }

/-- A console whose line holds `text` followed by zeros up to `MAX_LINE_LENGTH`, with the
cursor at `cursor`, the saved character equal to the slot under the cursor and the glyph not
showing: the console is active and otherwise as constructed. -/
def Console.holding (env : Env) (text : List CChar) (cursor : Nat) : Console :=
  { Console.new env with
    m_currentLine := text ++ List.replicate (env.MAX_LINE_LENGTH - text.length) 0
    m_cursorPointer := cursor
    m_characterAtCursor :=
      (text ++ List.replicate (env.MAX_LINE_LENGTH - text.length) 0).getD cursor 0
    m_isActive := true }

/-- The characters of `text` fed to `ParseKey` one per call, with no key pressed. -/
def Console.typeChars (env : Env) (text : List CChar) (c : Console) : Console :=
  text.foldl (fun console ch => console.ParseKey env Keys.none ch) c

/-- The eight-slot console, constructed and activated. -/
def exampleStart : Console := (Console.new exampleEnv).ActivateConsole

/-- The console after `a` and `|` were typed and the left arrow pressed, each in an `Update`
of zero seconds: the cursor stands on the typed bar. -/
def pipeUnderCursor : Console :=
  ((exampleStart.Update exampleEnv ⟨Keys.none, 97⟩ 0).Update exampleEnv ⟨Keys.none, 124⟩
    0).Update exampleEnv ⟨Keys.pressLEFT, 0⟩ 0

/-- The console after the right arrow was pressed on the empty line: the cursor stands one
slot past the terminator. -/
def cursorPastText : Console := exampleStart.Update exampleEnv ⟨Keys.pressRIGHT, 0⟩ 0

/-- The console after the right arrow, the character `c` and Home: the line is empty, the
cursor is at its start, and `c` sits after the terminator. -/
def hiddenText : Console :=
  ((exampleStart.Update exampleEnv ⟨Keys.pressRIGHT, 0⟩ 0).Update exampleEnv ⟨Keys.none, 99⟩
    0).Update exampleEnv ⟨Keys.pressHOME, 0⟩ 0

/-- Only the up arrow was just pressed. -/
def Keys.pressUP : Keys := { Keys.none with UP := true }

/-- Only the down arrow was just pressed. -/
def Keys.pressDOWN : Keys := { Keys.none with DOWN := true }

/-- The characters of `text` typed one per `Update` of zero seconds, with no key pressed. -/
def Console.typeThroughUpdate (env : Env) (text : List CChar) (c : Console) : Console :=
  text.foldl (fun console ch => console.Update env ⟨Keys.none, ch⟩ 0) c

/-- A run of `Update` calls, of the given durations, in which no key is pressed and no
character is typed. -/
def Console.idle (env : Env) (durations : List ℚ) (c : Console) : Console :=
  durations.foldl (fun console deltaSeconds => console.Update env ⟨Keys.none, 0⟩ deltaSeconds) c

/-- The eight-slot console after the eight characters `abcdefgh` were typed. -/
def fullLine : Console := exampleStart.typeThroughUpdate exampleEnv (cstr "abcdefgh")

/-- A widget without children whose bag for all states holds the given `Opacity`. -/
def opaqueWidget (name : String) (opacity : ℚ) (children : List WidgetBase) : WidgetBase :=
  .mk name [("Opacity", .float opacity)] [] WidgetState.ACTIVE_WIDGET_STATE
    ⟨Vector2.ZERO, Vector2.ONE⟩ children

/-- A widget in the active state with the given children. -/
def activeWidget (name : String) (children : List WidgetBase) : WidgetBase :=
  .mk name [] [] WidgetState.ACTIVE_WIDGET_STATE ⟨Vector2.ZERO, Vector2.ONE⟩ children

/-- A root with two children, the first of which has two children of its own. -/
def exampleTree : WidgetBase :=
  activeWidget "root"
    [activeWidget "panel" [activeWidget "first" [], activeWidget "second" []],
     activeWidget "sibling" []]

/-- Parsers for the examples: the text `2,3` reads as the vector (2, 3); no bounds are
recalculated. -/
def exampleUI : UIEnv where
  Vector2_CreateFromString := fun text => if text = "2,3" then ⟨2, 3⟩ else Vector2.ZERO
  RGBA_CreateFromString := fun _ => 0
  stof := fun _ => 0
  RecalculateBounds := fun widget => widget

/-- A widget whose `Size` was set to (2, 3). -/
def sizedWidget : WidgetBase :=
  .mk "sized" [("Offset", .vector2 Vector2.ZERO), ("Size", .vector2 ⟨2, 3⟩)] []
    WidgetState.ACTIVE_WIDGET_STATE ⟨Vector2.ZERO, Vector2.ONE⟩ []

/-- The value is the least of the values of a list: it is one of them and none is smaller. -/
def IsMinimumOf (value : ℚ) (values : List ℚ) : Prop :=
  value ∈ values ∧ ∀ other ∈ values, value ≤ other

/-- The value is the greatest of the values of a list: it is one of them and none is
larger. -/
def IsMaximumOf (value : ℚ) (values : List ℚ) : Prop :=
  value ∈ values ∧ ∀ other ∈ values, other ≤ value

/-- The rectangle `outer` contains the rectangle `inner`: on each axis its mins are at most
and its maxs at least those of `inner`. -/
def AABB2.Contains (outer inner : AABB2) : Prop :=
  outer.mins.x ≤ inner.mins.x ∧ outer.mins.y ≤ inner.mins.y
    ∧ inner.maxs.x ≤ outer.maxs.x ∧ inner.maxs.y ≤ outer.maxs.y

/-- A widget with the given bounds and children. -/
def boundedWidget (name : String) (bounds : AABB2) (children : List WidgetBase) : WidgetBase :=
  .mk name [] [] WidgetState.ACTIVE_WIDGET_STATE bounds children

/-- A widget with two children, of bounds (0,0)-(1,1) and (2,-1)-(3,1/2). -/
def exampleParent : WidgetBase :=
  boundedWidget "parent" ⟨Vector2.ZERO, Vector2.ZERO⟩
    [boundedWidget "left" ⟨⟨0, 0⟩, ⟨1, 1⟩⟩ [], boundedWidget "right" ⟨⟨2, -1⟩, ⟨3, 1 / 2⟩⟩ []]

/-- The console after `a` was typed and half a second passed: the glyph is showing in the
slot under the cursor. -/
def glyphUnderCursor : Console :=
  (exampleStart.Update exampleEnv ⟨Keys.none, 97⟩ 0).Update exampleEnv ⟨Keys.none, 0⟩ (1 / 2)

/-- The console after `a` and `b` were typed, half a second passed and the left arrow was
pressed: `m_isCursorShowing` is set, and the slot under the cursor holds `b`, not the
glyph. -/
def flagSetWithoutGlyph : Console :=
  ((exampleStart.typeThroughUpdate exampleEnv (cstr "ab")).Update exampleEnv ⟨Keys.none, 0⟩
    (1 / 2)).Update exampleEnv ⟨Keys.pressLEFT, 0⟩ 0

/-! ## Theorems -/

/-! ### The tokenizer (C1) -/

theorem strtok_all_append (t : List CChar) (ht : (32 : CChar) ∉ t) :
    ∀ (s token : List CChar), strtok_all (t ++ s) token = strtok_all s (token ++ t) := by
  induction t with
  | nil => intro s token; simp
  | cons ch rest ih =>
    intro s token
    have hch : ch ≠ 32 := fun h => ht (by simp [h])
    have hrest : (32 : CChar) ∉ rest := fun h => ht (by simp [h])
    simp [strtok_all, hch, ih hrest]

theorem strtok_all_join (toks : List (List CChar))
    (h : ∀ t ∈ toks, t ≠ [] ∧ (32 : CChar) ∉ t) :
    strtok_all (joinWithSpaces toks) [] = toks := by
  induction toks with
  | nil => simp [joinWithSpaces, strtok_all]
  | cons t rest ih =>
    have ht := h t (by simp)
    cases rest with
    | nil =>
      have := strtok_all_append t ht.2 [] []
      simp at this
      simp [joinWithSpaces, this, strtok_all, ht.1]
    | cons next rest =>
      have hrest := ih (fun u hu => h u (by simp [hu]))
      rw [joinWithSpaces, strtok_all_append t ht.2]
      simp [strtok_all, ht.1, hrest]

theorem c_str_eq_self (s : List CChar) (h : (0 : CChar) ∉ s) : c_str s = s := by
  unfold c_str
  rw [List.takeWhile_eq_self_iff]
  intro ch hch
  simp
  rintro rfl
  exact h hch

theorem not_mem_joinWithSpaces (x : CChar) (hx : x ≠ 32) (toks : List (List CChar))
    (h : ∀ t ∈ toks, x ∉ t) : x ∉ joinWithSpaces toks := by
  induction toks with
  | nil => simp [joinWithSpaces]
  | cons t rest ih =>
    cases rest with
    | nil => simpa [joinWithSpaces] using h t (by simp)
    | cons next rest =>
      have h1 := h t (by simp)
      have h2 := ih (fun u hu => h u (by simp [hu]))
      simp [joinWithSpaces, h1, h2, hx]

theorem find_space_append (t : List CChar) (ht : (32 : CChar) ∉ t) (s : List CChar) :
    find_space (t ++ 32 :: s) = some t.length := by
  induction t with
  | nil => simp [find_space]
  | cons ch rest ih =>
    have hch : ch ≠ 32 := fun h => ht (by simp [h])
    have hrest : (32 : CChar) ∉ rest := fun h => ht (by simp [h])
    simp [find_space, hch, ih hrest]

theorem substr_after_find_append (t : List CChar) (ht : (32 : CChar) ∉ t) (s : List CChar) :
    substr_after_find (t ++ 32 :: s) = s := by
  simp [substr_after_find, find_space_append t ht s]

/-- C1: for a line made of non-empty tokens that hold no space (and no NUL, which ends a C
string), joined by single spaces, the constructed `Command` has the first token lower-cased
as its name, the other tokens unchanged and in order as its arguments, and those other
tokens joined by single spaces as its forwarded-args string (empty when there is only one
token). -/
theorem Command.new_of_tokens (first : List CChar) (rest : List (List CChar))
    (h : ∀ t ∈ first :: rest, t ≠ [] ∧ (32 : CChar) ∉ t ∧ (0 : CChar) ∉ t) :
    (Command.new (joinWithSpaces (first :: rest))).m_commandName = first.map tolower ∧
    (Command.new (joinWithSpaces (first :: rest))).m_argsList = rest ∧
    (Command.new (joinWithSpaces (first :: rest))).m_fullArgsString = joinWithSpaces rest := by
  have h0 : (0 : CChar) ∉ joinWithSpaces (first :: rest) :=
    not_mem_joinWithSpaces 0 (by decide) _ (fun t ht => (h t ht).2.2)
  have htok := strtok_all_join (first :: rest) (fun t ht => ⟨(h t ht).1, (h t ht).2.1⟩)
  unfold Command.new
  rw [c_str_eq_self _ h0, htok]
  refine ⟨rfl, rfl, ?_⟩
  cases rest with
  | nil => simp [joinWithSpaces]
  | cons next rest =>
    simp only [joinWithSpaces]
    rw [substr_after_find_append first (h first (by simp)).2.1]
    simp

/-- C1 at the line `SAY hello world`. -/
theorem Command.new_of_tokens_witness :
    (∀ t ∈ cstr "SAY" :: [cstr "hello", cstr "world"],
      t ≠ [] ∧ (32 : CChar) ∉ t ∧ (0 : CChar) ∉ t) ∧
    (Command.new (cstr "SAY hello world")).m_commandName = cstr "say" ∧
    (Command.new (cstr "SAY hello world")).m_argsList = [cstr "hello", cstr "world"] ∧
    (Command.new (cstr "SAY hello world")).m_fullArgsString = cstr "hello world" :=
  ⟨by decide, Command.new_of_tokens (cstr "SAY") [cstr "hello", cstr "world"] (by decide)⟩

/-! ### Dispatch (C2) -/

/-- C3, the code at the line ` say hello` (one leading space): the argument list is `hello`
alone, yet the forwarded-args string is `say hello`, which splits on spaces into the command
name and the argument. -/
theorem Command.new_leading_space :
    (Command.new (cstr " say hello")).m_argsList = [cstr "hello"] ∧
    (Command.new (cstr " say hello")).m_fullArgsString = cstr "say hello" ∧
    strtok_all (c_str (Command.new (cstr " say hello")).m_fullArgsString) []
      = [cstr "say", cstr "hello"] := by
  decide

theorem Console.touch_fields (c : Console) (index : Nat) :
    (c.touch index).m_currentLine = c.m_currentLine ∧
    (c.touch index).m_cursorPointer = c.m_cursorPointer ∧
    (c.touch index).m_characterAtCursor = c.m_characterAtCursor ∧
    (c.touch index).m_consoleHistory = c.m_consoleHistory ∧
    (c.touch index).m_isCursorShowing = c.m_isCursorShowing ∧
    (c.touch index).m_timeSinceCursorBlink = c.m_timeSinceCursorBlink ∧
    (c.touch index).m_isActive = c.m_isActive := by
  unfold Console.touch
  split <;> simp

theorem Console.poke_fields (c : Console) (index : Nat) (value : CChar) :
    (c.poke index value).m_currentLine = c.m_currentLine.set index value ∧
    (c.poke index value).m_cursorPointer = c.m_cursorPointer ∧
    (c.poke index value).m_characterAtCursor = c.m_characterAtCursor ∧
    (c.poke index value).m_consoleHistory = c.m_consoleHistory ∧
    (c.poke index value).m_isCursorShowing = c.m_isCursorShowing ∧
    (c.poke index value).m_timeSinceCursorBlink = c.m_timeSinceCursorBlink ∧
    (c.poke index value).m_isActive = c.m_isActive := by
  have h := Console.touch_fields c index
  simp [Console.poke, h]

theorem Console.touchString_consoleHistory (c : Console) :
    c.touchString.m_consoleHistory = c.m_consoleHistory := by
  unfold Console.touchString
  split <;> simp

theorem Console.RunCommand_quit_result (env : Env) (c : Console)
    (hquit : env.g_consoleCommands.lookup (env.hash (cstr "quit")) = some Handler.quit) :
    (c.RunCommand env (cstr "quit")).found = true ∧
    (c.RunCommand env (cstr "quit")).console.g_isQuitting = true ∧
    (c.RunCommand env (cstr "quit")).console.m_consoleHistory
      = c.m_consoleHistory ++ [⟨cstr "Saving and shutting down...", RGBA.RED⟩] ∧
    (c.RunCommand env (cstr "quit")).invoked = some (Handler.quit, Command.new (cstr "quit")) ∧
    (c.RunCommand env (cstr "quit")).nested = [] := by
  have hname : (Command.new (cstr "quit")).m_commandName = cstr "quit" := by decide
  rw [Console.RunCommand]
  simp [hname, hquit, Console.PrintLine]

theorem c_str_head_ne_zero (line text : List CChar) (h : c_str line = text) (ht : text ≠ []) :
    line.getD 0 0 ≠ 0 := by
  cases line with
  | nil => simp [c_str] at h; exact absurd h ht
  | cons ch rest =>
    by_cases hch : ch = 0
    · simp [c_str, hch] at h; exact absurd h ht
    · simpa using hch

theorem Console.ParseKey_enter (env : Env) (c : Console) (keys : Keys) (currentChar : CChar)
    (henter : keys.ENTER = true) (hesc : keys.ESC = false) (hback : keys.BACKSPACE = false)
    (hchar : currentChar ≤ 0x1F)
    (hne : (c.poke c.m_cursorPointer c.m_characterAtCursor).IsEmpty = false) :
    c.ParseKey env keys currentChar
      = Console.memsetLine env
          { (if (((c.poke c.m_cursorPointer c.m_characterAtCursor).touchString.PrintLine
                  (c_str (c.poke c.m_cursorPointer c.m_characterAtCursor).m_currentLine)
                  RGBA.GRAY).RunCommand env
                (c_str (c.poke c.m_cursorPointer c.m_characterAtCursor).m_currentLine)).found
                = true
             then (((c.poke c.m_cursorPointer c.m_characterAtCursor).touchString.PrintLine
                  (c_str (c.poke c.m_cursorPointer c.m_characterAtCursor).m_currentLine)
                  RGBA.GRAY).RunCommand env
                (c_str (c.poke c.m_cursorPointer c.m_characterAtCursor).m_currentLine)).console
             else (((c.poke c.m_cursorPointer c.m_characterAtCursor).touchString.PrintLine
                  (c_str (c.poke c.m_cursorPointer c.m_characterAtCursor).m_currentLine)
                  RGBA.GRAY).RunCommand env
                (c_str (c.poke c.m_cursorPointer c.m_characterAtCursor).m_currentLine)).console.PrintLine
                  (cstr "Invalid Command.") RGBA.MAROON) with
            m_cursorPointer := 0 } := by
  have hchar2 : ¬ (currentChar > 0x1F) := not_lt.mpr hchar
  unfold Console.ParseKey
  simp only [hesc, henter, hback, hchar2, hne, Bool.false_eq_true, ↓reduceIte, false_and]

/-- C5: with `quit` registered, on every console `RunCommand("quit")` returns true, leaves
`g_isQuitting` true through the single call of the `quit` handler, and appends exactly one
entry, the shutdown message, to the console history; and whenever Enter is pressed on a
buffer that reads `quit`, the history grows by exactly the echo line and that entry. -/
theorem Console.RunCommand_quit (env : Env) (c : Console)
    (hquit : env.g_consoleCommands.lookup (env.hash (cstr "quit")) = some Handler.quit) :
    (c.RunCommand env (cstr "quit")).found = true ∧
    (c.RunCommand env (cstr "quit")).console.g_isQuitting = true ∧
    (c.RunCommand env (cstr "quit")).invoked = some (Handler.quit, Command.new (cstr "quit")) ∧
    (c.RunCommand env (cstr "quit")).nested = [] ∧
    (c.RunCommand env (cstr "quit")).console.m_consoleHistory
      = c.m_consoleHistory ++ [⟨cstr "Saving and shutting down...", RGBA.RED⟩] ∧
    (∀ (keys : Keys) (currentChar : CChar),
      c_str (c.poke c.m_cursorPointer c.m_characterAtCursor).m_currentLine = cstr "quit" →
      keys.ENTER = true → keys.ESC = false → keys.BACKSPACE = false → currentChar ≤ 0x1F →
      (c.ParseKey env keys currentChar).m_consoleHistory
        = c.m_consoleHistory ++
          [⟨cstr "quit", RGBA.GRAY⟩, ⟨cstr "Saving and shutting down...", RGBA.RED⟩] ∧
      (c.ParseKey env keys currentChar).g_isQuitting = true) := by
  have hrun := Console.RunCommand_quit_result env c hquit
  refine ⟨hrun.1, hrun.2.1, hrun.2.2.2.1, hrun.2.2.2.2, hrun.2.2.1, ?_⟩
  intro keys currentChar hline henter hesc hback hchar
  have hne : (c.poke c.m_cursorPointer c.m_characterAtCursor).IsEmpty = false := by
    have := c_str_head_ne_zero _ _ hline (by decide)
    simpa [Console.IsEmpty, Console.peek] using this
  have hrun2 := Console.RunCommand_quit_result env
    ((c.poke c.m_cursorPointer c.m_characterAtCursor).touchString.PrintLine (cstr "quit")
      RGBA.GRAY) hquit
  rw [Console.ParseKey_enter env c keys currentChar henter hesc hback hchar hne, hline,
    if_pos hrun2.1]
  refine ⟨?_, hrun2.2.1⟩
  show (Console.RunCommand env (cstr "quit") _).console.m_consoleHistory = _
  rw [hrun2.2.2.1]
  show ((c.poke c.m_cursorPointer c.m_characterAtCursor).touchString.m_consoleHistory
      ++ [⟨cstr "quit", RGBA.GRAY⟩]) ++ [⟨cstr "Saving and shutting down...", RGBA.RED⟩] = _
  rw [Console.touchString_consoleHistory,
    (Console.poke_fields c c.m_cursorPointer c.m_characterAtCursor).2.2.2.1,
    List.append_assoc]
  rfl

/-- C5 on the freshly constructed eight-slot console, whose buffer does not read `quit`, and
through Enter on the console whose line reads `quit`, cursor after the text. -/
theorem Console.RunCommand_quit_witness :
    (exampleEnv.g_consoleCommands.lookup (exampleEnv.hash (cstr "quit")) = some Handler.quit) ∧
    ((Console.new exampleEnv).RunCommand exampleEnv (cstr "quit")).found = true ∧
    ((Console.new exampleEnv).RunCommand exampleEnv (cstr "quit")).console.g_isQuitting = true ∧
    ((Console.new exampleEnv).RunCommand exampleEnv (cstr "quit")).console.m_consoleHistory
      = [⟨cstr "Saving and shutting down...", RGBA.RED⟩] ∧
    ((Console.holding exampleEnv (cstr "quit") 4).ParseKey exampleEnv Keys.pressENTER
        0).m_consoleHistory
      = [⟨cstr "quit", RGBA.GRAY⟩, ⟨cstr "Saving and shutting down...", RGBA.RED⟩] ∧
    ((Console.holding exampleEnv (cstr "quit") 4).ParseKey exampleEnv Keys.pressENTER
        0).g_isQuitting = true :=
  ⟨by decide,
   (Console.RunCommand_quit exampleEnv (Console.new exampleEnv) (by decide)).1,
   (Console.RunCommand_quit exampleEnv (Console.new exampleEnv) (by decide)).2.1,
   (Console.RunCommand_quit exampleEnv (Console.new exampleEnv) (by decide)).2.2.2.2.1,
   (Console.RunCommand_quit exampleEnv (Console.holding exampleEnv (cstr "quit") 4)
      (by decide)).2.2.2.2.2 Keys.pressENTER 0 (by decide) (by decide) (by decide) (by decide)
      (by decide)⟩

/-! ### Typing (C6) -/

theorem Console.ParseKey_insert (env : Env) (c : Console) (ch : CChar) (hch : ch > 0x1F)
    (hcursor : c.m_cursorPointer ≠ env.MAX_LINE_LENGTH) :
    c.ParseKey env Keys.none ch
      = { c.poke c.m_cursorPointer ch with m_cursorPointer := c.m_cursorPointer + 1 } := by
  unfold Console.ParseKey
  simp only [Keys.none, hch, hcursor, Bool.false_eq_true, ↓reduceIte, ne_eq, not_false_eq_true,
    and_self]

theorem Console.typeChars_spec (env : Env) (text : List CChar)
    (hprint : ∀ ch ∈ text, 0x20 ≤ ch ∧ ch ≤ 0x7E) :
    ∀ (c : Console) (before : List CChar) (room : Nat),
      c.m_currentLine = before ++ List.replicate (text.length + room) 0 →
      c.m_cursorPointer = before.length →
      env.MAX_LINE_LENGTH = before.length + text.length + room →
      (c.typeChars env text).m_currentLine = before ++ text ++ List.replicate room 0 ∧
      (c.typeChars env text).m_cursorPointer = before.length + text.length := by
  induction text with
  | nil =>
    intro c before room hline hcursor _
    have hnil : c.typeChars env [] = c := rfl
    rw [List.length_nil, Nat.zero_add] at hline
    rw [hnil, List.append_nil, List.length_nil, Nat.add_zero]
    exact ⟨hline, hcursor⟩
  | cons ch rest ih =>
    intro c before room hline hcursor hmax
    have hch := hprint ch (List.mem_cons_self _ _)
    have hgt : ch > 0x1F := lt_of_lt_of_le (by decide) hch.1
    have hne : c.m_cursorPointer ≠ env.MAX_LINE_LENGTH := by
      rw [hcursor, hmax, List.length_cons]; omega
    have hstep := Console.ParseKey_insert env c ch hgt hne
    have hfold : c.typeChars env (ch :: rest)
        = (c.ParseKey env Keys.none ch).typeChars env rest := rfl
    rw [hfold, hstep]
    have hset : (before ++ List.replicate ((ch :: rest).length + room) 0).set before.length ch
        = (before ++ [ch]) ++ List.replicate (rest.length + room) 0 := by
      have : (ch :: rest).length + room = (rest.length + room) + 1 := by
        rw [List.length_cons]; omega
      rw [this, List.replicate_succ, List.set_append_right _ _ (Nat.le_refl _), Nat.sub_self,
        List.set_cons_zero, List.append_assoc]
      rfl
    have := ih (fun x hx => hprint x (List.mem_cons_of_mem _ hx))
      { c.poke c.m_cursorPointer ch with m_cursorPointer := c.m_cursorPointer + 1 }
      (before ++ [ch]) room
      (by
        show (c.poke c.m_cursorPointer ch).m_currentLine = _
        rw [(Console.poke_fields c c.m_cursorPointer ch).1, hline, hcursor, hset])
      (by
        show c.m_cursorPointer + 1 = _
        rw [hcursor, List.length_append]; rfl)
      (by rw [hmax, List.length_append, List.length_cons, List.length_singleton]; omega)
    rw [List.length_append, List.length_singleton, List.append_assoc] at this
    rw [List.length_cons]
    refine ⟨?_, by rw [this.2]; omega⟩
    rw [this.1]
    simp only [List.append_assoc, List.singleton_append, List.cons_append, List.nil_append]

/-- C6: from a freshly constructed console, feeding `k ≤ MAX_LINE_LENGTH` printable characters
(codes 0x20..0x7E) to `ParseKey`, one per call with no key pressed, leaves the first `k` slots
of the buffer equal to the characters in order, every later slot zero, and the cursor at
index `k`. -/
theorem Console.typeChars_fresh (env : Env) (text : List CChar)
    (hprint : ∀ ch ∈ text, 0x20 ≤ ch ∧ ch ≤ 0x7E)
    (hlen : text.length ≤ env.MAX_LINE_LENGTH) :
    ((Console.new env).typeChars env text).m_currentLine
      = text ++ List.replicate (env.MAX_LINE_LENGTH - text.length) 0 ∧
    ((Console.new env).typeChars env text).m_currentLine.length = env.MAX_LINE_LENGTH ∧
    ((Console.new env).typeChars env text).m_cursorPointer = text.length := by
  have h := Console.typeChars_spec env text hprint (Console.new env) []
    (env.MAX_LINE_LENGTH - text.length)
    (by
      show List.replicate env.MAX_LINE_LENGTH 0 = [] ++ _
      rw [List.nil_append, Nat.add_sub_cancel' hlen])
    rfl
    (by rw [List.length_nil, Nat.zero_add, Nat.add_sub_cancel' hlen])
  rw [List.nil_append, List.length_nil, Nat.zero_add] at h
  refine ⟨h.1, ?_, h.2⟩
  rw [h.1, List.length_append, List.length_replicate, Nat.add_sub_cancel' hlen]

/-- C6 on the eight-slot console, typing `quit`. -/
theorem Console.typeChars_fresh_witness :
    (∀ ch ∈ cstr "quit", 0x20 ≤ ch ∧ ch ≤ 0x7E) ∧
    (cstr "quit").length ≤ exampleEnv.MAX_LINE_LENGTH ∧
    ((Console.new exampleEnv).typeChars exampleEnv (cstr "quit")).m_currentLine
      = cstr "quit" ++ [0, 0, 0, 0] ∧
    ((Console.new exampleEnv).typeChars exampleEnv (cstr "quit")).m_cursorPointer = 4 :=
  ⟨by decide, by decide,
   (Console.typeChars_fresh exampleEnv (cstr "quit") (by decide) (by decide)).1,
   (Console.typeChars_fresh exampleEnv (cstr "quit") (by decide) (by decide)).2.2⟩

/-! ### Backspace (C7, C8) -/

/-- C7, the code at the line `abc` with the cursor on `c` (index 2): Backspace writes the
terminator over `b` and moves nothing, so the buffer reads `a`, NUL, `c` and the line text
is `a`, not `ac`. -/
theorem Console.ParseKey_backspace_mid_line :
    (Console.holding exampleEnv (cstr "abc") 2).m_currentLine = cstr "abc" ++ [0, 0, 0, 0, 0] ∧
    ((Console.holding exampleEnv (cstr "abc") 2).ParseKey exampleEnv Keys.pressBACKSPACE
      0).m_currentLine = [97, 0, 99, 0, 0, 0, 0, 0] ∧
    c_str ((Console.holding exampleEnv (cstr "abc") 2).ParseKey exampleEnv Keys.pressBACKSPACE
      0).m_currentLine = cstr "a" ∧
    ((Console.holding exampleEnv (cstr "abc") 2).ParseKey exampleEnv Keys.pressBACKSPACE
      0).m_cursorPointer = 1 := by
  decide

theorem Console.ParseKey_backspace (env : Env) (c : Console) (hcursor : c.m_cursorPointer ≠ 0) :
    c.ParseKey env Keys.pressBACKSPACE 0
      = Console.poke
          { c.poke c.m_cursorPointer c.m_characterAtCursor with
            m_cursorPointer := c.m_cursorPointer - 1 }
          (c.m_cursorPointer - 1) 0 := by
  have hchar : ¬ ((0 : CChar) > 0x1F) := by decide
  unfold Console.ParseKey
  simp only [Keys.pressBACKSPACE, Keys.none, hchar, hcursor, Bool.false_eq_true, ↓reduceIte,
    ne_eq, not_false_eq_true, and_self, false_and]
  rw [(Console.poke_fields c c.m_cursorPointer c.m_characterAtCursor).2.1]

theorem set_getD_self (l : List CChar) : ∀ i : Nat, l.set i (l.getD i 0) = l := by
  induction l with
  | nil => intro i; rfl
  | cons x rest ih =>
    intro i
    cases i with
    | zero => rfl
    | succ j =>
      show x :: rest.set j (rest.getD j 0) = x :: rest
      rw [ih j]

theorem set_set_same (l : List CChar) (x y : CChar) : ∀ i : Nat, (l.set i x).set i y = l.set i y := by
  induction l with
  | nil => intro i; rfl
  | cons z rest ih =>
    intro i
    cases i with
    | zero => rfl
    | succ j =>
      show z :: (rest.set j x).set j y = z :: rest.set j y
      rw [ih j]

/-- C8, the code at a console reached through `Update` (`a`, `|`, left arrow): Backspace
followed by the removed character `a` leaves the buffer `a` where it held `a|`. -/
theorem Console.backspace_retype_loses_text :
    Console.Reachable exampleEnv pipeUnderCursor ∧
    pipeUnderCursor.m_cursorPointer = 1 ∧
    pipeUnderCursor.m_currentLine = [97, 124, 0, 0, 0, 0, 0, 0] ∧
    ((pipeUnderCursor.Update exampleEnv ⟨Keys.pressBACKSPACE, 0⟩ 0).Update exampleEnv
      ⟨Keys.none, 97⟩ 0).m_currentLine = [97, 0, 0, 0, 0, 0, 0, 0] ∧
    ((pipeUnderCursor.Update exampleEnv ⟨Keys.pressBACKSPACE, 0⟩ 0).Update exampleEnv
      ⟨Keys.none, 97⟩ 0).m_currentLine ≠ pipeUnderCursor.m_currentLine ∧
    ((pipeUnderCursor.ParseKey exampleEnv Keys.pressBACKSPACE 0).ParseKey exampleEnv
      Keys.none 97).m_currentLine ≠ pipeUnderCursor.m_currentLine :=
  ⟨Console.Reachable.update _ _ _ (Console.Reachable.update _ _ _
      (Console.Reachable.update _ _ _
        (Console.Reachable.activate _ Console.Reachable.constructed))),
   by with_unfolding_all decide, by with_unfolding_all decide, by with_unfolding_all decide,
   by with_unfolding_all decide, by with_unfolding_all decide⟩

/-- C8 as amended: on every console whose cursor is inside the buffer and not at its start,
whose saved character `m_characterAtCursor` is the character in the slot under the cursor
(what `Update` establishes whenever that slot does not hold the bar `|`), and where the
character before the cursor is printable, Backspace followed by the insertion of the removed
character leaves the whole buffer and the cursor as they were. -/
theorem Console.ParseKey_backspace_then_retype (env : Env) (c : Console)
    (hstart : c.m_cursorPointer ≠ 0)
    (hinside : c.m_cursorPointer < env.MAX_LINE_LENGTH)
    (hsaved : c.m_characterAtCursor = c.peek c.m_cursorPointer)
    (hprintable : c.peek (c.m_cursorPointer - 1) > 0x1F) :
    ((c.ParseKey env Keys.pressBACKSPACE 0).ParseKey env Keys.none
      (c.peek (c.m_cursorPointer - 1))).m_currentLine = c.m_currentLine ∧
    ((c.ParseKey env Keys.pressBACKSPACE 0).ParseKey env Keys.none
      (c.peek (c.m_cursorPointer - 1))).m_cursorPointer = c.m_cursorPointer := by
  have hback := Console.ParseKey_backspace env c hstart
  have hcur1 : (c.ParseKey env Keys.pressBACKSPACE 0).m_cursorPointer = c.m_cursorPointer - 1 := by
    rw [hback]; exact (Console.poke_fields _ _ _).2.1
  have hline1 : (c.ParseKey env Keys.pressBACKSPACE 0).m_currentLine
      = c.m_currentLine.set (c.m_cursorPointer - 1) 0 := by
    rw [hback, (Console.poke_fields _ _ _).1]
    show ((c.poke c.m_cursorPointer c.m_characterAtCursor).m_currentLine).set _ _ = _
    rw [(Console.poke_fields _ _ _).1, hsaved]
    show (c.m_currentLine.set c.m_cursorPointer (c.m_currentLine.getD c.m_cursorPointer 0)).set
      _ _ = _
    rw [set_getD_self]
  have hne : (c.ParseKey env Keys.pressBACKSPACE 0).m_cursorPointer ≠ env.MAX_LINE_LENGTH := by
    rw [hcur1]; omega
  rw [Console.ParseKey_insert env _ _ hprintable hne]
  constructor
  · show ((c.ParseKey env Keys.pressBACKSPACE 0).poke _ _).m_currentLine = _
    rw [(Console.poke_fields _ _ _).1, hline1, hcur1, set_set_same]
    exact set_getD_self c.m_currentLine (c.m_cursorPointer - 1)
  · show (c.ParseKey env Keys.pressBACKSPACE 0).m_cursorPointer + 1 = _
    rw [hcur1]; omega

/-- C8 as amended, on the line `ab` with the cursor after `a`. -/
theorem Console.ParseKey_backspace_then_retype_witness :
    (Console.holding exampleEnv (cstr "ab") 1).m_cursorPointer ≠ 0 ∧
    (((Console.holding exampleEnv (cstr "ab") 1).ParseKey exampleEnv Keys.pressBACKSPACE
      0).ParseKey exampleEnv Keys.none
      ((Console.holding exampleEnv (cstr "ab") 1).peek
        ((Console.holding exampleEnv (cstr "ab") 1).m_cursorPointer - 1))).m_currentLine
      = (Console.holding exampleEnv (cstr "ab") 1).m_currentLine :=
  ⟨by decide,
   (Console.ParseKey_backspace_then_retype exampleEnv (Console.holding exampleEnv (cstr "ab") 1)
      (by decide) (by decide) (by decide) (by decide)).1⟩

/-! ### Delete, Home and End (C9, C10) -/

/-- C9, the code at two consoles whose cursor is at the end of the line text. On the console
reached by the right arrow, `c` and Home, the line is empty and Delete makes it `c`; on the
console whose line `abcdefg` fills the eight slots up to the terminator, Delete reads the slot
past the allocation. -/
theorem Console.ParseKey_delete_at_end :
    Console.Reachable exampleEnv hiddenText ∧
    hiddenText.m_cursorPointer = 0 ∧
    c_str hiddenText.m_currentLine = [] ∧
    c_str (hiddenText.ParseKey exampleEnv Keys.pressDEL 0).m_currentLine = cstr "c" ∧
    c_str (Console.holding exampleEnv (cstr "abcdefg") 7).m_currentLine = cstr "abcdefg" ∧
    (Console.holding exampleEnv (cstr "abcdefg") 7).outOfBounds = false ∧
    ((Console.holding exampleEnv (cstr "abcdefg") 7).ParseKey exampleEnv Keys.pressDEL
      0).outOfBounds = true :=
  ⟨Console.Reachable.update _ _ _ (Console.Reachable.update _ _ _
      (Console.Reachable.update _ _ _
        (Console.Reachable.activate _ Console.Reachable.constructed))),
   by with_unfolding_all decide, by with_unfolding_all decide, by with_unfolding_all decide,
   by decide, by decide, by decide⟩

/-- C10, the code at a console reached by key presses (the right arrow on the empty line):
the first null byte of the buffer is at index 0, and End leaves the cursor at index 1. -/
theorem Console.ParseKey_end_past_text :
    Console.Reachable exampleEnv cursorPastText ∧
    cursorPastText.m_currentLine = [0, 0, 0, 0, 0, 0, 0, 0] ∧
    (cursorPastText.ParseKey exampleEnv Keys.pressEND 0).m_currentLine
      = [0, 0, 0, 0, 0, 0, 0, 0] ∧
    (cursorPastText.ParseKey exampleEnv Keys.pressEND 0).m_cursorPointer = 1 ∧
    (cursorPastText.Update exampleEnv ⟨Keys.pressEND, 0⟩ 0).m_cursorPointer = 1 ∧
    (c_str (cursorPastText.Update exampleEnv ⟨Keys.pressEND, 0⟩ 0).m_currentLine).length = 0 :=
  ⟨Console.Reachable.update _ _ _ (Console.Reachable.activate _ Console.Reachable.constructed),
   by with_unfolding_all decide, by with_unfolding_all decide, by with_unfolding_all decide,
   by with_unfolding_all decide, by with_unfolding_all decide⟩

theorem Console.ParseKey_home (env : Env) (c : Console) :
    c.ParseKey env Keys.pressHOME 0
      = { c.poke c.m_cursorPointer c.m_characterAtCursor with m_cursorPointer := 0 } := by
  have hchar : ¬ ((0 : CChar) > 0x1F) := by decide
  unfold Console.ParseKey
  simp only [Keys.pressHOME, Keys.none, hchar, Bool.false_eq_true, ↓reduceIte, false_and]

theorem Console.ParseKey_end (env : Env) (c : Console) :
    c.ParseKey env Keys.pressEND 0
      = (c.poke c.m_cursorPointer c.m_characterAtCursor).endLoop env.MAX_LINE_LENGTH 0 := by
  have hchar : ¬ ((0 : CChar) > 0x1F) := by decide
  unfold Console.ParseKey
  simp only [Keys.pressEND, Keys.none, hchar, Bool.false_eq_true, ↓reduceIte, false_and]

theorem Console.touch_inside (c : Console) (index : Nat) (h : index < c.m_currentLine.length) :
    c.touch index = c := by
  unfold Console.touch
  rw [if_pos h]

theorem Console.endLoop_spec (c : Console) :
    ∀ (steps count i : Nat), steps < count →
      (∀ j, j < steps → c.peek (c.m_cursorPointer + i + j) ≠ 0) →
      c.peek (c.m_cursorPointer + i + steps) = 0 →
      c.m_cursorPointer + i + steps < c.m_currentLine.length →
      c.endLoop count i = { c with m_cursorPointer := c.m_cursorPointer + i + steps } := by
  intro steps
  induction steps with
  | zero =>
    intro count i hcount _ hzero hin
    obtain ⟨k, rfl⟩ : ∃ k, count = k + 1 := ⟨count - 1, by omega⟩
    rw [Nat.add_zero] at hzero hin
    show (if (c.touch (c.m_cursorPointer + i)).peek (c.m_cursorPointer + i) = 0 then _ else _) = _
    rw [Console.touch_inside c _ hin, if_pos hzero]
    rfl
  | succ s ih =>
    intro count i hcount hbefore hzero hin
    obtain ⟨k, rfl⟩ : ∃ k, count = k + 1 := ⟨count - 1, by omega⟩
    have hin0 : c.m_cursorPointer + i < c.m_currentLine.length := by omega
    have hne : ¬ (c.peek (c.m_cursorPointer + i) = 0) := by
      have := hbefore 0 (Nat.succ_pos s)
      rwa [Nat.add_zero] at this
    show (if (c.touch (c.m_cursorPointer + i)).peek (c.m_cursorPointer + i) = 0 then _ else _) = _
    rw [Console.touch_inside c _ hin0, if_neg hne]
    have hshift : ∀ j, c.m_cursorPointer + (i + 1) + j = c.m_cursorPointer + i + (j + 1) := by
      intro j; omega
    rw [ih k (i + 1) (by omega)
      (fun j hj => by rw [hshift]; exact hbefore (j + 1) (by omega))
      (by rw [hshift]; exact hzero) (by rw [hshift]; exact hin), hshift]

/-- C10 as amended: on every console whose cursor is inside the buffer, Home puts the cursor
at index 0, and End puts it at the first null byte at or after the cursor (`target`,
whenever the buffer has one there); neither key changes the buffer beyond writing the saved
character `m_characterAtCursor` back into the slot under the cursor, and neither reaches
outside the buffer. -/
theorem Console.ParseKey_home_end (env : Env) (c : Console)
    (hlength : c.m_currentLine.length = env.MAX_LINE_LENGTH)
    (hcursor : c.m_cursorPointer < env.MAX_LINE_LENGTH) :
    (c.ParseKey env Keys.pressHOME 0).m_cursorPointer = 0 ∧
    (c.ParseKey env Keys.pressHOME 0).m_currentLine
      = c.m_currentLine.set c.m_cursorPointer c.m_characterAtCursor ∧
    (c.ParseKey env Keys.pressHOME 0).outOfBounds = c.outOfBounds ∧
    (∀ target : Nat, c.m_cursorPointer ≤ target → target < env.MAX_LINE_LENGTH →
      (c.m_currentLine.set c.m_cursorPointer c.m_characterAtCursor).getD target 0 = 0 →
      (∀ j, c.m_cursorPointer ≤ j → j < target →
        (c.m_currentLine.set c.m_cursorPointer c.m_characterAtCursor).getD j 0 ≠ 0) →
      (c.ParseKey env Keys.pressEND 0).m_cursorPointer = target ∧
      (c.ParseKey env Keys.pressEND 0).m_currentLine
        = c.m_currentLine.set c.m_cursorPointer c.m_characterAtCursor ∧
      (c.ParseKey env Keys.pressEND 0).outOfBounds = c.outOfBounds) := by
  have hpoke := Console.poke_fields c c.m_cursorPointer c.m_characterAtCursor
  have hbounds : (c.poke c.m_cursorPointer c.m_characterAtCursor).outOfBounds
      = c.outOfBounds := by
    show (c.touch c.m_cursorPointer).outOfBounds = c.outOfBounds
    rw [Console.touch_inside c _ (by rw [hlength]; exact hcursor)]
  refine ⟨?_, ?_, ?_, ?_⟩
  · rw [Console.ParseKey_home]
  · rw [Console.ParseKey_home]
    exact hpoke.1
  · rw [Console.ParseKey_home]
    exact hbounds
  · intro target hfrom hinside hzero hfirst
    have hend := Console.endLoop_spec (c.poke c.m_cursorPointer c.m_characterAtCursor)
      (target - c.m_cursorPointer) env.MAX_LINE_LENGTH 0 (by omega)
      (fun j hj => by
        show (c.poke c.m_cursorPointer c.m_characterAtCursor).m_currentLine.getD _ 0 ≠ 0
        rw [hpoke.1, hpoke.2.1]
        exact hfirst _ (by omega) (by omega))
      (by
        show (c.poke c.m_cursorPointer c.m_characterAtCursor).m_currentLine.getD _ 0 = 0
        rw [hpoke.1, hpoke.2.1]
        have : c.m_cursorPointer + 0 + (target - c.m_cursorPointer) = target := by omega
        rw [this]; exact hzero)
      (by rw [hpoke.1, hpoke.2.1, List.length_set, hlength]; omega)
    rw [Console.ParseKey_end, hend]
    refine ⟨?_, hpoke.1, hbounds⟩
    show (c.poke c.m_cursorPointer c.m_characterAtCursor).m_cursorPointer + 0
      + (target - c.m_cursorPointer) = target
    rw [hpoke.2.1]; omega

/-- C10 as amended, on the line `abc` with the cursor after `a`, where End goes to index 3
and Home to index 0, and on the line `abcdefgh` that fills the eight slots, cursor at 7,
where no null byte follows the cursor and Home goes to index 0. -/
theorem Console.ParseKey_home_end_witness :
    (Console.holding exampleEnv (cstr "abc") 1).m_cursorPointer < exampleEnv.MAX_LINE_LENGTH ∧
    ((Console.holding exampleEnv (cstr "abc") 1).ParseKey exampleEnv Keys.pressEND
      0).m_cursorPointer = 3 ∧
    ((Console.holding exampleEnv (cstr "abc") 1).ParseKey exampleEnv Keys.pressHOME
      0).m_cursorPointer = 0 ∧
    (Console.holding exampleEnv (cstr "abcdefgh") 7).m_cursorPointer
      < exampleEnv.MAX_LINE_LENGTH ∧
    ((Console.holding exampleEnv (cstr "abcdefgh") 7).ParseKey exampleEnv Keys.pressHOME
      0).m_cursorPointer = 0 ∧
    ((Console.holding exampleEnv (cstr "abcdefgh") 7).ParseKey exampleEnv Keys.pressHOME
      0).outOfBounds = false :=
  ⟨by decide,
   ((Console.ParseKey_home_end exampleEnv (Console.holding exampleEnv (cstr "abc") 1)
      (by decide) (by decide)).2.2.2 3 (by decide) (by decide) (by decide) (by decide)).1,
   (Console.ParseKey_home_end exampleEnv (Console.holding exampleEnv (cstr "abc") 1)
      (by decide) (by decide)).1,
   by decide,
   (Console.ParseKey_home_end exampleEnv (Console.holding exampleEnv (cstr "abcdefgh") 7)
      (by decide) (by decide)).1,
   (Console.ParseKey_home_end exampleEnv (Console.holding exampleEnv (cstr "abcdefgh") 7)
      (by decide) (by decide)).2.2.1⟩

/-! ### Command history and Enter (C11, C12) -/

/-- C11, the code on the activated console with an empty command history: the guard of Down,
`m_commandHistoryIndex < m_commandHistory.size() - 1`, is computed in unsigned arithmetic and
holds, so Down moves the index to 1 and reads `m_commandHistory[1]` outside the vector. -/
theorem Console.ParseKey_down_empty_history :
    exampleStart.m_commandHistory = [] ∧
    exampleStart.m_commandHistoryIndex = 0 ∧
    exampleStart.outOfBounds = false ∧
    (exampleStart.ParseKey exampleEnv Keys.pressDOWN 0).m_commandHistoryIndex = 1 ∧
    (exampleStart.ParseKey exampleEnv Keys.pressDOWN 0).outOfBounds = true := by
  decide

theorem Console.RunCommand_found_of_some (env : Env) (line : List CChar) (c : Console)
    (handler : Handler)
    (hlook : env.g_consoleCommands.lookup (env.hash (Command.new line).m_commandName)
      = some handler) :
    (c.RunCommand env line).found = true := by
  rw [Console.RunCommand]
  cases handler with
  | clear => simp only [hlook]
  | quit => simp only [hlook]
  | runfor =>
    simp only [hlook]
    split <;> rfl
  | other id => simp only [hlook]

theorem Console.RunCommand_not_found (env : Env) (line : List CChar) (c : Console)
    (h : (c.RunCommand env line).found = false) :
    (c.RunCommand env line).console.m_consoleHistory = c.m_consoleHistory := by
  cases hlook : env.g_consoleCommands.lookup (env.hash (Command.new line).m_commandName) with
  | none =>
    rw [Console.RunCommand]
    simp only [hlook]
  | some handler =>
    rw [Console.RunCommand_found_of_some env line c handler hlook] at h
    exact absurd h (by decide)

theorem Console.ParseKey_enter_empty (env : Env) (c : Console) (keys : Keys)
    (currentChar : CChar) (henter : keys.ENTER = true) (hesc : keys.ESC = false)
    (hback : keys.BACKSPACE = false) (hchar : currentChar ≤ 0x1F)
    (hempty : (c.poke c.m_cursorPointer c.m_characterAtCursor).IsEmpty = true) :
    c.ParseKey env keys currentChar
      = (c.poke c.m_cursorPointer c.m_characterAtCursor).DeactivateConsole := by
  have hchar2 : ¬ (currentChar > 0x1F) := not_lt.mpr hchar
  unfold Console.ParseKey
  simp only [hesc, henter, hback, hchar2, hempty, Bool.false_eq_true, ↓reduceIte, false_and]

/-- C12: Enter (with neither Escape nor Backspace pressed and no character typed) first writes
the saved character back under the cursor. When the line then is not empty, Enter appends it
to the console history as a gray echo entry, dispatches it through `RunCommand`, appends the
maroon `Invalid Command.` entry exactly when `RunCommand` returns false (the history is then
the old one, the echo and that entry), and leaves the buffer all zero with the cursor at the
start. When the line is empty, Enter deactivates the console and appends to neither
history. -/
theorem Console.ParseKey_enter_dispatch (env : Env) (c : Console) (keys : Keys)
    (currentChar : CChar) (henter : keys.ENTER = true) (hesc : keys.ESC = false)
    (hback : keys.BACKSPACE = false) (hchar : currentChar ≤ 0x1F) :
    ((c.poke c.m_cursorPointer c.m_characterAtCursor).IsEmpty = false →
      ((c.poke c.m_cursorPointer c.m_characterAtCursor).touchString.PrintLine
          (c_str (c.poke c.m_cursorPointer c.m_characterAtCursor).m_currentLine)
          RGBA.GRAY).m_consoleHistory
        = c.m_consoleHistory
          ++ [⟨c_str (c.poke c.m_cursorPointer c.m_characterAtCursor).m_currentLine, RGBA.GRAY⟩] ∧
      (c.ParseKey env keys currentChar).m_consoleHistory
        = (if (((c.poke c.m_cursorPointer c.m_characterAtCursor).touchString.PrintLine
                (c_str (c.poke c.m_cursorPointer c.m_characterAtCursor).m_currentLine)
                RGBA.GRAY).RunCommand env
              (c_str (c.poke c.m_cursorPointer c.m_characterAtCursor).m_currentLine)).found
              = true
           then (((c.poke c.m_cursorPointer c.m_characterAtCursor).touchString.PrintLine
                (c_str (c.poke c.m_cursorPointer c.m_characterAtCursor).m_currentLine)
                RGBA.GRAY).RunCommand env
              (c_str (c.poke c.m_cursorPointer c.m_characterAtCursor).m_currentLine)
              ).console.m_consoleHistory
           else c.m_consoleHistory
            ++ [⟨c_str (c.poke c.m_cursorPointer c.m_characterAtCursor).m_currentLine,
                  RGBA.GRAY⟩,
                ⟨cstr "Invalid Command.", RGBA.MAROON⟩]) ∧
      (c.ParseKey env keys currentChar).m_currentLine
        = List.replicate env.MAX_LINE_LENGTH 0 ∧
      (c.ParseKey env keys currentChar).m_cursorPointer = 0) ∧
    ((c.poke c.m_cursorPointer c.m_characterAtCursor).IsEmpty = true →
      (c.ParseKey env keys currentChar).m_isActive = false ∧
      (c.ParseKey env keys currentChar).m_consoleHistory = c.m_consoleHistory ∧
      (c.ParseKey env keys currentChar).m_commandHistory = c.m_commandHistory ∧
      (c.ParseKey env keys currentChar).m_currentLine
        = c.m_currentLine.set c.m_cursorPointer c.m_characterAtCursor ∧
      (c.ParseKey env keys currentChar).m_cursorPointer = c.m_cursorPointer) := by
  have hpoke := Console.poke_fields c c.m_cursorPointer c.m_characterAtCursor
  have hecho : ((c.poke c.m_cursorPointer c.m_characterAtCursor).touchString.PrintLine
      (c_str (c.poke c.m_cursorPointer c.m_characterAtCursor).m_currentLine)
      RGBA.GRAY).m_consoleHistory
      = c.m_consoleHistory
        ++ [⟨c_str (c.poke c.m_cursorPointer c.m_characterAtCursor).m_currentLine,
              RGBA.GRAY⟩] := by
    show (c.poke c.m_cursorPointer c.m_characterAtCursor).touchString.m_consoleHistory ++ _ = _
    rw [Console.touchString_consoleHistory, hpoke.2.2.2.1]
  constructor
  · intro hne
    rw [Console.ParseKey_enter env c keys currentChar henter hesc hback hchar hne]
    refine ⟨hecho, ?_, rfl, rfl⟩
    by_cases hfound : (((c.poke c.m_cursorPointer c.m_characterAtCursor).touchString.PrintLine
        (c_str (c.poke c.m_cursorPointer c.m_characterAtCursor).m_currentLine)
        RGBA.GRAY).RunCommand env
        (c_str (c.poke c.m_cursorPointer c.m_characterAtCursor).m_currentLine)).found = true
    · rw [if_pos hfound, if_pos hfound]
      rfl
    · rw [if_neg hfound, if_neg hfound]
      have hnot := Console.RunCommand_not_found env _ _ (Bool.eq_false_iff.mpr hfound)
      show (Console.RunCommand env _ _).console.m_consoleHistory ++ _ = _
      rw [hnot, hecho, List.append_assoc]
      rfl
  · intro hempty
    rw [Console.ParseKey_enter_empty env c keys currentChar henter hesc hback hchar hempty]
    exact ⟨rfl, hpoke.2.2.2.1, by
      show (c.poke c.m_cursorPointer c.m_characterAtCursor).m_commandHistory = _
      unfold Console.poke Console.touch
      split <;> rfl, hpoke.1, hpoke.2.1⟩

theorem Console.typeThroughUpdate_reachable (env : Env) (text : List CChar) :
    ∀ c : Console, Console.Reachable env c →
      Console.Reachable env (c.typeThroughUpdate env text) := by
  induction text with
  | nil => intro c hc; exact hc
  | cons ch rest ih =>
    intro c hc
    exact ih _ (Console.Reachable.update c ⟨Keys.none, ch⟩ 0 hc)

/-- C18, the code on the eight-slot console after eight characters were typed: the insertion
guard lets the cursor reach `m_currentLine + MAX_LINE_LENGTH`, and the next `Update` reads
`*m_cursorPointer` there, outside the allocation. -/
theorem Console.Update_reads_past_full_line :
    Console.Reachable exampleEnv fullLine ∧
    exampleEnv.MAX_LINE_LENGTH = 8 ∧
    fullLine.m_currentLine = cstr "abcdefgh" ∧
    fullLine.m_cursorPointer = 8 ∧
    fullLine.outOfBounds = false ∧
    (fullLine.Update exampleEnv ⟨Keys.none, 0⟩ 0).outOfBounds = true :=
  ⟨Console.typeThroughUpdate_reachable exampleEnv _ _
      (Console.Reachable.activate _ Console.Reachable.constructed),
   by decide, by with_unfolding_all decide, by with_unfolding_all decide,
   by with_unfolding_all decide, by with_unfolding_all decide⟩

/-- C19, the code at two consoles reached through `Update`, each with `|` in the slot under
the cursor. After `a`, `|` and the left arrow the glyph is not showing, and after two idle
`Update` calls of half a second it is again not showing and the buffer reads `a` where it
read `a|`. After `a` and half a second the glyph is showing, the buffer holds it, and after
one more idle half second the glyph is not showing and the buffer differs from the buffer
before that run. -/
theorem Console.idle_blink_erases_bar :
    Console.Reachable exampleEnv pipeUnderCursor ∧
    pipeUnderCursor.m_isCursorShowing = false ∧
    pipeUnderCursor.m_currentLine = [97, 124, 0, 0, 0, 0, 0, 0] ∧
    (pipeUnderCursor.idle exampleEnv [1 / 2, 1 / 2]).m_isCursorShowing = false ∧
    (pipeUnderCursor.idle exampleEnv [1 / 2, 1 / 2]).m_currentLine
      = [97, 0, 0, 0, 0, 0, 0, 0] ∧
    (pipeUnderCursor.idle exampleEnv [1 / 2, 1 / 2]).m_currentLine
      ≠ pipeUnderCursor.m_currentLine ∧
    Console.Reachable exampleEnv glyphUnderCursor ∧
    glyphUnderCursor.m_isCursorShowing = true ∧
    glyphUnderCursor.m_currentLine = [97, 124, 0, 0, 0, 0, 0, 0] ∧
    (glyphUnderCursor.idle exampleEnv [1 / 2]).m_isCursorShowing = false ∧
    (glyphUnderCursor.idle exampleEnv [1 / 2]).m_currentLine = [97, 0, 0, 0, 0, 0, 0, 0] :=
  ⟨Console.Reachable.update _ _ _ (Console.Reachable.update _ _ _
      (Console.Reachable.update _ _ _
        (Console.Reachable.activate _ Console.Reachable.constructed))),
   by with_unfolding_all decide, by with_unfolding_all decide, by with_unfolding_all decide,
   by with_unfolding_all decide, by with_unfolding_all decide,
   Console.Reachable.update _ _ _ (Console.Reachable.update _ _ _
      (Console.Reachable.activate _ Console.Reachable.constructed)),
   by with_unfolding_all decide, by with_unfolding_all decide, by with_unfolding_all decide,
   by with_unfolding_all decide⟩

theorem Console.ParseKey_idle (env : Env) (c : Console) : c.ParseKey env Keys.none 0 = c := by
  have hchar : ¬ ((0 : CChar) > 0x1F) := by decide
  unfold Console.ParseKey
  simp only [Keys.none, hchar, Bool.false_eq_true, ↓reduceIte, false_and]

theorem Console.Update_inactive (env : Env) (c : Console) (input : Input) (deltaSeconds : ℚ)
    (h : c.m_isActive = false) : c.Update env input deltaSeconds = c := by
  unfold Console.Update
  rw [if_neg (by rw [h]; decide)]

theorem Console.Update_idle (env : Env) (c : Console) (deltaSeconds : ℚ)
    (h : c.m_isActive = true) :
    c.Update env ⟨Keys.none, 0⟩ deltaSeconds
      = (Console.saveCharacterAtCursor
          { c with m_timeSinceCursorBlink := c.m_timeSinceCursorBlink + deltaSeconds }
        ).blinkCursor := by
  unfold Console.Update
  rw [if_pos h]
  show (Console.ParseKey env Keys.none 0 _).blinkCursor = _
  rw [Console.ParseKey_idle]

theorem Console.saveCharacterAtCursor_fields (c : Console)
    (hin : c.m_cursorPointer < c.m_currentLine.length) :
    c.saveCharacterAtCursor.m_currentLine = c.m_currentLine ∧
    c.saveCharacterAtCursor.m_cursorPointer = c.m_cursorPointer ∧
    c.saveCharacterAtCursor.m_isCursorShowing = c.m_isCursorShowing ∧
    c.saveCharacterAtCursor.m_timeSinceCursorBlink = c.m_timeSinceCursorBlink ∧
    c.saveCharacterAtCursor.m_isActive = c.m_isActive ∧
    c.saveCharacterAtCursor.m_characterAtCursor
      = (if c.peek c.m_cursorPointer ≠ CURSOR_CHARACTER then c.peek c.m_cursorPointer
         else c.m_characterAtCursor) := by
  unfold Console.saveCharacterAtCursor
  rw [Console.touch_inside c _ hin]
  by_cases hbar : c.peek c.m_cursorPointer ≠ CURSOR_CHARACTER
  · rw [if_pos hbar, if_pos hbar]
    exact ⟨rfl, rfl, rfl, rfl, rfl, rfl⟩
  · rw [if_neg hbar, if_neg hbar]
    exact ⟨rfl, rfl, rfl, rfl, rfl, rfl⟩

theorem Console.blinkCursor_quiet (c : Console)
    (hquiet : ¬ (c.m_timeSinceCursorBlink ≥ CURSOR_BLINK_RATE_SECONDS)) : c.blinkCursor = c := by
  unfold Console.blinkCursor
  rw [if_neg hquiet]

theorem Console.blinkCursor_due (c : Console)
    (hdue : c.m_timeSinceCursorBlink ≥ CURSOR_BLINK_RATE_SECONDS) :
    c.blinkCursor.m_currentLine
      = c.m_currentLine.set c.m_cursorPointer
          (if (!c.m_isCursorShowing) = true then CURSOR_CHARACTER else c.m_characterAtCursor) ∧
    c.blinkCursor.m_cursorPointer = c.m_cursorPointer ∧
    c.blinkCursor.m_isCursorShowing = (!c.m_isCursorShowing) ∧
    c.blinkCursor.m_characterAtCursor = c.m_characterAtCursor ∧
    c.blinkCursor.m_isActive = c.m_isActive := by
  unfold Console.blinkCursor
  rw [if_pos hdue]
  exact ⟨(Console.poke_fields _ _ _).1, (Console.poke_fields _ _ _).2.1,
    (Console.poke_fields _ _ _).2.2.2.2.1, (Console.poke_fields _ _ _).2.2.1,
    (Console.poke_fields _ _ _).2.2.2.2.2.2⟩

theorem getD_set_self (l : List CChar) (x : CChar) :
    ∀ i : Nat, i < l.length → (l.set i x).getD i 0 = x := by
  induction l with
  | nil => intro i hi; exact absurd hi (Nat.not_lt_zero _)
  | cons y rest ih =>
    intro i hi
    cases i with
    | zero => rfl
    | succ j =>
      show (rest.set j x).getD j 0 = x
      exact ih j (Nat.lt_of_succ_lt_succ hi)

theorem Console.Update_idle_invariant (env : Env) (line : List CChar) (cursor : Nat)
    (hin : cursor < line.length) (hbar : line.getD cursor 0 ≠ CURSOR_CHARACTER)
    (s : Console) (deltaSeconds : ℚ)
    (hinv : s.m_cursorPointer = cursor ∧
      ((s.m_isCursorShowing = false ∧ s.m_currentLine = line) ∨
       (s.m_isCursorShowing = true ∧ s.m_currentLine = line.set cursor CURSOR_CHARACTER ∧
        s.m_characterAtCursor = line.getD cursor 0))) :
    (s.Update env ⟨Keys.none, 0⟩ deltaSeconds).m_cursorPointer = cursor ∧
      (((s.Update env ⟨Keys.none, 0⟩ deltaSeconds).m_isCursorShowing = false ∧
        (s.Update env ⟨Keys.none, 0⟩ deltaSeconds).m_currentLine = line) ∨
       ((s.Update env ⟨Keys.none, 0⟩ deltaSeconds).m_isCursorShowing = true ∧
        (s.Update env ⟨Keys.none, 0⟩ deltaSeconds).m_currentLine
          = line.set cursor CURSOR_CHARACTER ∧
        (s.Update env ⟨Keys.none, 0⟩ deltaSeconds).m_characterAtCursor
          = line.getD cursor 0)) := by
  by_cases hactive : s.m_isActive = true
  swap
  · rw [Console.Update_inactive env s _ _ (Bool.eq_false_iff.mpr hactive)]
    exact hinv
  obtain ⟨hcursor, hstate⟩ := hinv
  have hlen : s.m_currentLine.length = line.length := by
    rcases hstate with ⟨_, hl⟩ | ⟨_, hl, _⟩
    · rw [hl]
    · rw [hl, List.length_set]
  have hin1 : (Console.m_cursorPointer
      { s with m_timeSinceCursorBlink := s.m_timeSinceCursorBlink + deltaSeconds })
      < (Console.m_currentLine
      { s with m_timeSinceCursorBlink := s.m_timeSinceCursorBlink + deltaSeconds }).length := by
    show s.m_cursorPointer < s.m_currentLine.length
    rw [hcursor, hlen]; exact hin
  obtain ⟨f1, f2, f3, _, _, f6⟩ := Console.saveCharacterAtCursor_fields _ hin1
  have f1 : (Console.saveCharacterAtCursor
      { s with m_timeSinceCursorBlink := s.m_timeSinceCursorBlink + deltaSeconds }).m_currentLine
      = s.m_currentLine := f1
  have f2 : (Console.saveCharacterAtCursor
      { s with m_timeSinceCursorBlink := s.m_timeSinceCursorBlink + deltaSeconds }).m_cursorPointer
      = cursor := by rw [f2]; exact hcursor
  have f3 : (Console.saveCharacterAtCursor
      { s with m_timeSinceCursorBlink := s.m_timeSinceCursorBlink + deltaSeconds }
      ).m_isCursorShowing = s.m_isCursorShowing := f3
  have f6 : (Console.saveCharacterAtCursor
      { s with m_timeSinceCursorBlink := s.m_timeSinceCursorBlink + deltaSeconds }
      ).m_characterAtCursor = line.getD cursor 0 := by
    rw [f6]
    show (if s.m_currentLine.getD s.m_cursorPointer 0 ≠ CURSOR_CHARACTER
      then s.m_currentLine.getD s.m_cursorPointer 0 else s.m_characterAtCursor) = _
    rw [hcursor]
    rcases hstate with ⟨_, hl⟩ | ⟨_, hl, hc⟩
    · rw [hl, if_pos hbar]
    · rw [hl, getD_set_self line _ cursor hin, if_neg (by simp), hc]
  rw [Console.Update_idle env s deltaSeconds hactive]
  by_cases hdue : (Console.saveCharacterAtCursor
      { s with m_timeSinceCursorBlink := s.m_timeSinceCursorBlink + deltaSeconds }
      ).m_timeSinceCursorBlink ≥ CURSOR_BLINK_RATE_SECONDS
  · obtain ⟨b1, b2, b3, b4, _⟩ := Console.blinkCursor_due _ hdue
    rw [b1, b2, b3, b4, f1, f2, f3, f6]
    refine ⟨rfl, ?_⟩
    rcases hstate with ⟨hs, hl⟩ | ⟨hs, hl, _⟩
    · right
      rw [hs, hl]
      exact ⟨rfl, rfl, rfl⟩
    · left
      rw [hs, hl]
      refine ⟨rfl, ?_⟩
      show (line.set cursor CURSOR_CHARACTER).set cursor (line.getD cursor 0) = line
      rw [set_set_same, set_getD_self]
  · rw [Console.blinkCursor_quiet _ hdue, f1, f2, f3, f6]
    refine ⟨rfl, ?_⟩
    rcases hstate with ⟨hs, hl⟩ | ⟨hs, hl, _⟩
    · left; exact ⟨hs, hl⟩
    · right; exact ⟨hs, hl, rfl⟩

theorem Console.Update_idle_unshown (env : Env) (line : List CChar) (cursor : Nat)
    (hin : cursor < line.length) (hbar : line.getD cursor 0 ≠ CURSOR_CHARACTER)
    (s : Console) (deltaSeconds : ℚ)
    (hinv : s.m_cursorPointer = cursor ∧ s.m_isCursorShowing = true ∧ s.m_currentLine = line) :
    (s.Update env ⟨Keys.none, 0⟩ deltaSeconds).m_cursorPointer = cursor ∧
      (s.Update env ⟨Keys.none, 0⟩ deltaSeconds).m_currentLine = line := by
  by_cases hactive : s.m_isActive = true
  swap
  · rw [Console.Update_inactive env s _ _ (Bool.eq_false_iff.mpr hactive)]
    exact ⟨hinv.1, hinv.2.2⟩
  obtain ⟨hcursor, hs, hl⟩ := hinv
  have hin1 : (Console.m_cursorPointer
      { s with m_timeSinceCursorBlink := s.m_timeSinceCursorBlink + deltaSeconds })
      < (Console.m_currentLine
      { s with m_timeSinceCursorBlink := s.m_timeSinceCursorBlink + deltaSeconds }).length := by
    show s.m_cursorPointer < s.m_currentLine.length
    rw [hcursor, hl]; exact hin
  obtain ⟨f1, f2, f3, _, _, f6⟩ := Console.saveCharacterAtCursor_fields _ hin1
  have f1 : (Console.saveCharacterAtCursor
      { s with m_timeSinceCursorBlink := s.m_timeSinceCursorBlink + deltaSeconds }).m_currentLine
      = line := by rw [f1]; exact hl
  have f2 : (Console.saveCharacterAtCursor
      { s with m_timeSinceCursorBlink := s.m_timeSinceCursorBlink + deltaSeconds }).m_cursorPointer
      = cursor := by rw [f2]; exact hcursor
  have f3 : (Console.saveCharacterAtCursor
      { s with m_timeSinceCursorBlink := s.m_timeSinceCursorBlink + deltaSeconds }
      ).m_isCursorShowing = true := by rw [f3]; exact hs
  have f6 : (Console.saveCharacterAtCursor
      { s with m_timeSinceCursorBlink := s.m_timeSinceCursorBlink + deltaSeconds }
      ).m_characterAtCursor = line.getD cursor 0 := by
    rw [f6]
    show (if s.m_currentLine.getD s.m_cursorPointer 0 ≠ CURSOR_CHARACTER
      then s.m_currentLine.getD s.m_cursorPointer 0 else s.m_characterAtCursor) = _
    rw [hcursor, hl, if_pos hbar]
  rw [Console.Update_idle env s deltaSeconds hactive]
  by_cases hdue : (Console.saveCharacterAtCursor
      { s with m_timeSinceCursorBlink := s.m_timeSinceCursorBlink + deltaSeconds }
      ).m_timeSinceCursorBlink ≥ CURSOR_BLINK_RATE_SECONDS
  · obtain ⟨b1, b2, _, _, _⟩ := Console.blinkCursor_due _ hdue
    rw [b1, b2, f1, f2, f3, f6]
    refine ⟨rfl, ?_⟩
    show line.set cursor (line.getD cursor 0) = line
    exact set_getD_self line cursor
  · rw [Console.blinkCursor_quiet _ hdue, f1, f2]
    exact ⟨rfl, rfl⟩

/-- C19 as amended: on every console whose cursor is inside the buffer and whose slot under
the cursor does not hold the bar `|`, after every run of `Update` calls in which no key is
pressed and no character is typed the cursor has not moved, the buffer equals the buffer
before the run whenever the glyph is not showing, and it differs from that buffer at most by
the glyph in the cursor slot while the glyph is showing; when the run starts with the glyph
not showing, the glyph is in the cursor slot exactly while it is showing. -/
theorem Console.idle_keeps_text (env : Env) (c : Console) (durations : List ℚ)
    (hin : c.m_cursorPointer < c.m_currentLine.length)
    (hbar : c.peek c.m_cursorPointer ≠ CURSOR_CHARACTER) :
    (c.idle env durations).m_cursorPointer = c.m_cursorPointer ∧
    ((c.idle env durations).m_isCursorShowing = false →
      (c.idle env durations).m_currentLine = c.m_currentLine) ∧
    ((c.idle env durations).m_currentLine = c.m_currentLine ∨
      ((c.idle env durations).m_isCursorShowing = true ∧
        (c.idle env durations).m_currentLine
          = c.m_currentLine.set c.m_cursorPointer CURSOR_CHARACTER)) ∧
    (c.m_isCursorShowing = false →
      (c.idle env durations).m_currentLine
        = (if (c.idle env durations).m_isCursorShowing = true
           then c.m_currentLine.set c.m_cursorPointer CURSOR_CHARACTER
           else c.m_currentLine)) := by
  have hrun : ∀ (ds : List ℚ) (s : Console),
      (s.m_cursorPointer = c.m_cursorPointer ∧
        ((s.m_isCursorShowing = false ∧ s.m_currentLine = c.m_currentLine) ∨
         (s.m_isCursorShowing = true ∧
          s.m_currentLine = c.m_currentLine.set c.m_cursorPointer CURSOR_CHARACTER ∧
          s.m_characterAtCursor = c.m_currentLine.getD c.m_cursorPointer 0))) →
      ((s.idle env ds).m_cursorPointer = c.m_cursorPointer ∧
        (((s.idle env ds).m_isCursorShowing = false ∧
          (s.idle env ds).m_currentLine = c.m_currentLine) ∨
         ((s.idle env ds).m_isCursorShowing = true ∧
          (s.idle env ds).m_currentLine
            = c.m_currentLine.set c.m_cursorPointer CURSOR_CHARACTER ∧
          (s.idle env ds).m_characterAtCursor = c.m_currentLine.getD c.m_cursorPointer 0))) := by
    intro ds
    induction ds with
    | nil => intro s hs; exact hs
    | cons d rest ih =>
      intro s hs
      exact ih _ (Console.Update_idle_invariant env c.m_currentLine c.m_cursorPointer hin hbar
        s d hs)
  have hrun3 : ∀ (ds : List ℚ) (s : Console),
      (s.m_cursorPointer = c.m_cursorPointer ∧ s.m_isCursorShowing = true ∧
        s.m_currentLine = c.m_currentLine) →
      ((s.idle env ds).m_cursorPointer = c.m_cursorPointer ∧
        (((s.idle env ds).m_isCursorShowing = false ∧
          (s.idle env ds).m_currentLine = c.m_currentLine) ∨
         ((s.idle env ds).m_isCursorShowing = true ∧
          (s.idle env ds).m_currentLine
            = c.m_currentLine.set c.m_cursorPointer CURSOR_CHARACTER) ∨
         ((s.idle env ds).m_isCursorShowing = true ∧
          (s.idle env ds).m_currentLine = c.m_currentLine))) := by
    intro ds
    induction ds with
    | nil =>
      intro s hs
      exact ⟨hs.1, Or.inr (Or.inr hs.2)⟩
    | cons d rest ih =>
      intro s hs
      obtain ⟨u1, u2⟩ := Console.Update_idle_unshown env c.m_currentLine c.m_cursorPointer
        hin hbar s d hs
      cases hflag : (s.Update env ⟨Keys.none, 0⟩ d).m_isCursorShowing with
      | true => exact ih _ ⟨u1, hflag, u2⟩
      | false =>
        obtain ⟨h1, h2⟩ := hrun rest (s.Update env ⟨Keys.none, 0⟩ d)
          ⟨u1, Or.inl ⟨hflag, u2⟩⟩
        refine ⟨h1, ?_⟩
        rcases h2 with h2 | ⟨hs2, hl2, _⟩
        · exact Or.inl h2
        · exact Or.inr (Or.inl ⟨hs2, hl2⟩)
  have hexact : c.m_isCursorShowing = false →
      (c.idle env durations).m_cursorPointer = c.m_cursorPointer ∧
      (c.idle env durations).m_currentLine
        = (if (c.idle env durations).m_isCursorShowing = true
           then c.m_currentLine.set c.m_cursorPointer CURSOR_CHARACTER
           else c.m_currentLine) := by
    intro hshowing
    obtain ⟨h1, h2⟩ := hrun durations c ⟨rfl, Or.inl ⟨hshowing, rfl⟩⟩
    refine ⟨h1, ?_⟩
    rcases h2 with ⟨hs, hl⟩ | ⟨hs, hl, _⟩
    · rw [hs, hl, if_neg (by decide)]
    · rw [hs, hl, if_pos rfl]
  have hall : (c.idle env durations).m_cursorPointer = c.m_cursorPointer ∧
      (((c.idle env durations).m_isCursorShowing = false ∧
        (c.idle env durations).m_currentLine = c.m_currentLine) ∨
       ((c.idle env durations).m_isCursorShowing = true ∧
        (c.idle env durations).m_currentLine
          = c.m_currentLine.set c.m_cursorPointer CURSOR_CHARACTER) ∨
       ((c.idle env durations).m_isCursorShowing = true ∧
        (c.idle env durations).m_currentLine = c.m_currentLine)) := by
    cases hflag : c.m_isCursorShowing with
    | true => exact hrun3 durations c ⟨rfl, hflag, rfl⟩
    | false =>
      obtain ⟨h1, h2⟩ := hrun durations c ⟨rfl, Or.inl ⟨hflag, rfl⟩⟩
      refine ⟨h1, ?_⟩
      rcases h2 with h2 | ⟨hs2, hl2, _⟩
      · exact Or.inl h2
      · exact Or.inr (Or.inl ⟨hs2, hl2⟩)
  obtain ⟨g1, g2⟩ := hall
  refine ⟨g1, ?_, ?_, fun hshowing => (hexact hshowing).2⟩
  · intro hoff
    rcases g2 with ⟨_, hl⟩ | ⟨hs, _⟩ | ⟨hs, _⟩
    · exact hl
    · rw [hs] at hoff
      exact absurd hoff (by decide)
    · rw [hs] at hoff
      exact absurd hoff (by decide)
  · rcases g2 with ⟨_, hl⟩ | ⟨hs, hl⟩ | ⟨_, hl⟩
    · exact Or.inl hl
    · exact Or.inr ⟨hs, hl⟩
    · exact Or.inl hl

/-- C19 as amended, on the console reached by `a`, `b`, a blink and the left arrow, where
`m_isCursorShowing` is set and the slot under the cursor holds `b`: the cursor stays over
two more blinks, and after one blink the glyph is not showing and the buffer is the buffer
before the run. -/
theorem Console.idle_keeps_text_witness :
    Console.Reachable exampleEnv flagSetWithoutGlyph ∧
    flagSetWithoutGlyph.m_cursorPointer < flagSetWithoutGlyph.m_currentLine.length ∧
    flagSetWithoutGlyph.peek flagSetWithoutGlyph.m_cursorPointer ≠ CURSOR_CHARACTER ∧
    flagSetWithoutGlyph.m_isCursorShowing = true ∧
    (flagSetWithoutGlyph.idle exampleEnv [1 / 2, 1 / 2]).m_cursorPointer
      = flagSetWithoutGlyph.m_cursorPointer ∧
    (flagSetWithoutGlyph.idle exampleEnv [1 / 2]).m_currentLine
      = flagSetWithoutGlyph.m_currentLine :=
  ⟨Console.Reachable.update _ _ _ (Console.Reachable.update _ _ _
      (Console.typeThroughUpdate_reachable exampleEnv _ _
        (Console.Reachable.activate _ Console.Reachable.constructed))),
   by with_unfolding_all decide, by with_unfolding_all decide, by with_unfolding_all decide,
   (Console.idle_keeps_text exampleEnv flagSetWithoutGlyph [1 / 2, 1 / 2]
      (by with_unfolding_all decide) (by with_unfolding_all decide)).1,
   (Console.idle_keeps_text exampleEnv flagSetWithoutGlyph [1 / 2]
      (by with_unfolding_all decide) (by with_unfolding_all decide)).2.1
      (by with_unfolding_all decide)⟩

/-! ### `GetFileName` (C17) -/

/-- C17, the code at the path `music/song.mp3`: the second argument of `substr` is a count,
not the stopping position, so with a 32-bit `size_t` the result is `song.mp3`; with a 64-bit
`size_t` the `unsigned` positions never equal `npos`, the search for a backslash is taken as
found, and the result is `music/song.`. Neither is `song`. -/
theorem GetFileName_keeps_extension :
    GetFileName (2 ^ 32 - 1) (cstr "music/song.mp3") = cstr "song.mp3" ∧
    GetFileName (2 ^ 64 - 1) (cstr "music/song.mp3") = cstr "music/song." ∧
    GetFileName (2 ^ 32 - 1) (cstr "music/song.mp3") ≠ cstr "song" ∧
    GetFileName (2 ^ 64 - 1) (cstr "music/song.mp3") ≠ cstr "song" := by
  decide

/-! ### Opacity (C13) -/

theorem GetParentOpacitiesLoop_eq (chain : List WidgetBase) (parentOpacities : ℚ) :
    GetParentOpacitiesLoop chain parentOpacities
      = parentOpacities
        * (chain.map (fun parent => parent.m_propertiesForAllStates.GetFloat "Opacity")).prod := by
  induction chain generalizing parentOpacities with
  | nil => simp only [GetParentOpacitiesLoop, List.map_nil, List.prod_nil, mul_one]
  | cons parent chain ih =>
    rw [GetParentOpacitiesLoop, ih, List.map_cons, List.prod_cons, mul_assoc]

/-- C13: for the widget that a path leads to in a tree, `GetParentOpacities` is the product
of the `Opacity` of all its ancestors, which is 1 for the root; the opacity `Render` applies
is the widget's own `Opacity` times that product; and a widget of `Opacity` 1/2 under a
single ancestor of `Opacity` 1/2 is rendered with 1/4. -/
theorem WidgetBase.GetParentOpacities_product (root : WidgetBase) (path : List Nat)
    (w : WidgetBase) :
    WidgetBase.GetParentOpacities (root.ancestorsAt path)
        = ((root.ancestorsAt path).map
            (fun parent => parent.m_propertiesForAllStates.GetFloat "Opacity")).prod
      ∧ WidgetBase.GetParentOpacities (root.ancestorsAt []) = 1
      ∧ w.RenderOpacity (root.ancestorsAt path)
        = w.GetPropertyFloat "Opacity"
          * ((root.ancestorsAt path).map
              (fun parent => parent.m_propertiesForAllStates.GetFloat "Opacity")).prod
      ∧ (opaqueWidget "child" (1 / 2) []).RenderOpacity
          ((opaqueWidget "parent" (1 / 2) [opaqueWidget "child" (1 / 2) []]).ancestorsAt [0])
        = 1 / 4 := by
  have h : WidgetBase.GetParentOpacities (root.ancestorsAt path)
      = ((root.ancestorsAt path).map
          (fun parent => parent.m_propertiesForAllStates.GetFloat "Opacity")).prod := by
    rw [WidgetBase.GetParentOpacities, GetParentOpacitiesLoop_eq, one_mul]
  refine ⟨h, ?_, ?_, ?_⟩
  · cases root
    rfl
  · rw [WidgetBase.RenderOpacity, h]
  · with_unfolding_all decide

/-! ### `SetHidden` (C14) -/

theorem SetHiddenChildren_eq_map (children : List WidgetBase) :
    SetHiddenChildren children = children.map WidgetBase.SetHidden := by
  induction children with
  | nil => rw [SetHiddenChildren, List.map_nil]
  | cons child rest ih => rw [SetHiddenChildren, ih, List.map_cons]

theorem WidgetBase.SetHidden_state (w : WidgetBase) :
    w.SetHidden.m_currentState = WidgetState.HIDDEN_WIDGET_STATE := by
  cases w
  rw [WidgetBase.SetHidden, WidgetBase.m_currentState]

theorem WidgetBase.at?_SetHidden (path : List Nat) :
    ∀ w : WidgetBase, w.SetHidden.at? path = (w.at? path).map WidgetBase.SetHidden := by
  induction path with
  | nil =>
    intro w
    rw [WidgetBase.at?, WidgetBase.at?, Option.map_some']
  | cons index path ih =>
    intro w
    cases w with
    | mk name all perState state bounds children =>
      rw [WidgetBase.SetHidden, WidgetBase.at?, WidgetBase.at?, SetHiddenChildren_eq_map,
        List.getElem?_map]
      cases hchild : children[index]? with
      | none => rfl
      | some child => exact ih child

theorem WidgetBase.at?_modifyAt_under (change : WidgetBase → WidgetBase) (path : List Nat) :
    ∀ (root w : WidgetBase), root.at? path = some w →
      ∀ inner, (WidgetBase.modifyAt change root path).at? (path ++ inner)
        = (change w).at? inner := by
  induction path with
  | nil =>
    intro root w h inner
    rw [WidgetBase.at?] at h
    cases h
    rw [WidgetBase.modifyAt, List.nil_append]
  | cons index path ih =>
    intro root w h inner
    cases root with
    | mk name all perState state bounds children =>
      rw [WidgetBase.at?] at h
      cases hchild : children[index]? with
      | none =>
        rw [hchild] at h
        cases h
      | some child =>
        rw [hchild] at h
        have hlt : index < children.length := (List.getElem?_eq_some_iff.mp hchild).1
        rw [WidgetBase.modifyAt, hchild, List.cons_append, WidgetBase.at?,
          List.getElem?_set_self hlt]
        exact ih child w h inner

theorem WidgetBase.at?_modifyAt_outside (change : WidgetBase → WidgetBase) (path : List Nat) :
    ∀ (root w : WidgetBase), root.at? path = some w →
      ∀ other, ¬ path <+: other →
        ((WidgetBase.modifyAt change root path).at? other).map WidgetBase.m_currentState
          = (root.at? other).map WidgetBase.m_currentState := by
  induction path with
  | nil =>
    intro root w _ other hother
    exact absurd (List.nil_prefix) hother
  | cons index path ih =>
    intro root w h other hother
    cases root with
    | mk name all perState state bounds children =>
      rw [WidgetBase.at?] at h
      cases hchild : children[index]? with
      | none =>
        rw [hchild] at h
        cases h
      | some child =>
        rw [hchild] at h
        have hlt : index < children.length := (List.getElem?_eq_some_iff.mp hchild).1
        rw [WidgetBase.modifyAt, hchild]
        cases other with
        | nil => rfl
        | cons first other =>
          rw [WidgetBase.at?, WidgetBase.at?]
          by_cases hfirst : first = index
          · subst hfirst
            rw [List.getElem?_set_self hlt, hchild]
            apply ih child w h other
            intro hprefix
            exact hother ((List.prefix_cons_inj first).mpr hprefix)
          · rw [List.getElem?_set_ne (fun heq => hfirst heq.symm)]

/-- C14: when `w` is the widget that `path` leads to in a tree, after `w.SetHidden()` every
widget of the subtree rooted at `w` is still there, is in the hidden state and is not
clickable, and the widget at every path that does not pass through `w` keeps its state. -/
theorem WidgetBase.SetHidden_subtree (root w : WidgetBase) (path : List Nat)
    (h : root.at? path = some w) :
    (∀ inner v, w.at? inner = some v →
        ∃ hidden, (WidgetBase.modifyAt WidgetBase.SetHidden root path).at? (path ++ inner)
            = some hidden
          ∧ hidden.m_currentState = WidgetState.HIDDEN_WIDGET_STATE
          ∧ hidden.IsClickable = false)
      ∧ (∀ other, ¬ path <+: other →
          ((WidgetBase.modifyAt WidgetBase.SetHidden root path).at? other).map
              WidgetBase.m_currentState
            = (root.at? other).map WidgetBase.m_currentState) := by
  refine ⟨?_, WidgetBase.at?_modifyAt_outside WidgetBase.SetHidden path root w h⟩
  intro inner v hv
  refine ⟨v.SetHidden, ?_, WidgetBase.SetHidden_state v, ?_⟩
  · rw [WidgetBase.at?_modifyAt_under WidgetBase.SetHidden path root w h inner,
      WidgetBase.at?_SetHidden, hv, Option.map_some']
  · rw [WidgetBase.IsClickable, WidgetBase.SetHidden_state v]
    rfl

/-- C14 at the panel of the example tree, a widget with two children: the panel and both
children are not clickable afterwards, and its sibling and the root stay active. -/
theorem WidgetBase.SetHidden_subtree_witness :
    exampleTree.at? [0] = some (activeWidget "panel"
        [activeWidget "first" [], activeWidget "second" []])
      ∧ (((WidgetBase.modifyAt WidgetBase.SetHidden exampleTree [0]).at? [0]).map
          WidgetBase.IsClickable = some false
        ∧ ((WidgetBase.modifyAt WidgetBase.SetHidden exampleTree [0]).at? [0, 0]).map
          WidgetBase.IsClickable = some false
        ∧ ((WidgetBase.modifyAt WidgetBase.SetHidden exampleTree [0]).at? [0, 1]).map
          WidgetBase.IsClickable = some false)
      ∧ ((WidgetBase.modifyAt WidgetBase.SetHidden exampleTree [0]).at? [1]).map
          WidgetBase.m_currentState = some WidgetState.ACTIVE_WIDGET_STATE
      ∧ ((WidgetBase.modifyAt WidgetBase.SetHidden exampleTree [0]).at? []).map
          WidgetBase.m_currentState = some WidgetState.ACTIVE_WIDGET_STATE := by
  have hpanel : exampleTree.at? [0] = some (activeWidget "panel"
      [activeWidget "first" [], activeWidget "second" []]) := rfl
  have hsub := WidgetBase.SetHidden_subtree exampleTree _ [0] hpanel
  refine ⟨hpanel, ⟨?_, ?_, ?_⟩, ?_, ?_⟩
  · obtain ⟨hidden, hat, _, hclick⟩ := hsub.1 [] _ rfl
    rw [List.append_nil] at hat
    rw [hat, Option.map_some', hclick]
  · obtain ⟨hidden, hat, _, hclick⟩ := hsub.1 [0] _ rfl
    rw [show [0, 0] = [0] ++ [0] from rfl, hat, Option.map_some', hclick]
  · obtain ⟨hidden, hat, _, hclick⟩ := hsub.1 [1] _ rfl
    rw [show [0, 1] = [0] ++ [1] from rfl, hat, Option.map_some', hclick]
  · rw [hsub.2 [1] (by decide)]
    rfl
  · rw [hsub.2 [] (by decide)]
    rfl

/-! ### Hit-testing (C15, C20) -/

mutual
theorem WidgetBase.GetWidgetPointIsInside_SetHidden (point : Vector2) :
    ∀ w : WidgetBase,
      w.SetHidden.GetWidgetPointIsInside point = w.GetWidgetPointIsInside point
  | .mk name all perState state bounds children => by
    rw [WidgetBase.SetHidden, WidgetBase.GetWidgetPointIsInside,
      WidgetBase.GetWidgetPointIsInside,
      GetWidgetPointIsInsideChildren_SetHidden point children 0]
theorem GetWidgetPointIsInsideChildren_SetHidden (point : Vector2) :
    ∀ (children : List WidgetBase) (index : Nat),
      GetWidgetPointIsInsideChildren point (SetHiddenChildren children) index
        = GetWidgetPointIsInsideChildren point children index
  | [], index => by
    rw [SetHiddenChildren]
  | child :: rest, index => by
    rw [SetHiddenChildren, GetWidgetPointIsInsideChildren, GetWidgetPointIsInsideChildren,
      WidgetBase.GetWidgetPointIsInside_SetHidden point child,
      GetWidgetPointIsInsideChildren_SetHidden point rest (index + 1)]
end

/-- C15: `SetHidden` changes nothing in what `GetWidgetPointIsInside` returns, which has no
test of the state: a hidden widget whose bounds contain the point is returned. After
`SetHidden` the active widget of bounds (0,0)-(1,1) is hidden and still returned for the
point (1/2, 1/2), and with two children hidden along with it, its first child is returned. -/
theorem WidgetBase.GetWidgetPointIsInside_returns_hidden :
    (∀ (w : WidgetBase) (point : Vector2),
        w.SetHidden.GetWidgetPointIsInside point = w.GetWidgetPointIsInside point)
      ∧ (activeWidget "button" []).SetHidden.m_currentState
          = WidgetState.HIDDEN_WIDGET_STATE
      ∧ (activeWidget "button" []).SetHidden.GetWidgetPointIsInside ⟨1 / 2, 1 / 2⟩ = some []
      ∧ WidgetBase.GetWidgetPointIsInside ⟨1 / 2, 1 / 2⟩
          (activeWidget "panel" [activeWidget "first" [], activeWidget "second" []]).SetHidden
          = some [0]
      ∧ (WidgetBase.at?
          (activeWidget "panel" [activeWidget "first" [], activeWidget "second" []]).SetHidden
          [0]).map WidgetBase.m_currentState
          = some WidgetState.HIDDEN_WIDGET_STATE := by
  refine ⟨fun w point => WidgetBase.GetWidgetPointIsInside_SetHidden point w, rfl, ?_, ?_, rfl⟩
  · with_unfolding_all decide
  · with_unfolding_all decide

mutual
theorem WidgetBase.GetWidgetPointIsInside_eq_find (point : Vector2) :
    ∀ w : WidgetBase,
      w.GetWidgetPointIsInside point
        = (w.childrenFirst.find?
            (fun entry => entry.2.m_bounds.IsPointOnOrInside point)).map Prod.fst
  | .mk name all perState state bounds children => by
    rw [WidgetBase.GetWidgetPointIsInside, WidgetBase.childrenFirst, List.find?_append,
      GetWidgetPointIsInsideChildren_eq_find point children 0]
    cases (childrenFirstOf children 0).find?
        (fun entry => entry.2.m_bounds.IsPointOnOrInside point) with
    | some entry => rfl
    | none =>
      rw [Option.map_none', Option.none_or, List.find?_cons, List.find?_nil]
      show _ = Option.map Prod.fst (match bounds.IsPointOnOrInside point with
        | true => some ([], WidgetBase.mk name all perState state bounds children)
        | false => none)
      cases bounds.IsPointOnOrInside point <;> rfl
theorem GetWidgetPointIsInsideChildren_eq_find (point : Vector2) :
    ∀ (children : List WidgetBase) (index : Nat),
      GetWidgetPointIsInsideChildren point children index
        = ((childrenFirstOf children index).find?
            (fun entry => entry.2.m_bounds.IsPointOnOrInside point)).map Prod.fst
  | [], index => by
    rw [GetWidgetPointIsInsideChildren, childrenFirstOf, List.find?_nil, Option.map_none']
  | child :: rest, index => by
    rw [GetWidgetPointIsInsideChildren, childrenFirstOf, List.find?_append, List.find?_map,
      WidgetBase.GetWidgetPointIsInside_eq_find point child,
      GetWidgetPointIsInsideChildren_eq_find point rest (index + 1)]
    show _ = Option.map Prod.fst
      ((Option.map (fun entry : List Nat × WidgetBase => (index :: entry.1, entry.2))
        (child.childrenFirst.find?
          (fun entry => entry.2.m_bounds.IsPointOnOrInside point))).or _)
    cases child.childrenFirst.find?
        (fun entry => entry.2.m_bounds.IsPointOnOrInside point) with
    | some entry => rfl
    | none => rfl
end

mutual
theorem WidgetBase.mem_childrenFirst :
    ∀ (w : WidgetBase) (path : List Nat) (v : WidgetBase),
      (path, v) ∈ w.childrenFirst ↔ w.at? path = some v
  | .mk name all perState state bounds children, path, v => by
    rw [WidgetBase.childrenFirst, List.mem_append, List.mem_singleton,
      mem_childrenFirstOf children 0 path v]
    cases path with
    | nil =>
      rw [WidgetBase.at?]
      constructor
      · rintro (⟨j, inner, child, hpath, _⟩ | heq)
        · cases hpath
        · rw [(Prod.mk.inj heq).2]
      · intro h
        right
        rw [Option.some.inj h]
    | cons first inner =>
      rw [WidgetBase.at?]
      constructor
      · rintro (⟨j, inner2, child, hpath, hchild, hv⟩ | heq)
        · rw [Nat.zero_add] at hpath
          cases hpath
          rw [hchild]
          exact hv
        · cases heq
      · intro h
        left
        cases hchild : children[first]? with
        | none =>
          rw [hchild] at h
          cases h
        | some child =>
          rw [hchild] at h
          exact ⟨first, inner, child, by rw [Nat.zero_add], hchild, h⟩
theorem mem_childrenFirstOf :
    ∀ (children : List WidgetBase) (index : Nat) (path : List Nat) (v : WidgetBase),
      (path, v) ∈ childrenFirstOf children index ↔
        ∃ j inner child, path = (index + j) :: inner ∧ children[j]? = some child
          ∧ child.at? inner = some v
  | [], index, path, v => by
    rw [childrenFirstOf]
    constructor
    · intro h
      cases h
    · rintro ⟨j, inner, child, _, hchild, _⟩
      rw [List.getElem?_nil] at hchild
      cases hchild
  | child :: rest, index, path, v => by
    rw [childrenFirstOf, List.mem_append, List.mem_map,
      mem_childrenFirstOf rest (index + 1) path v]
    constructor
    · rintro (⟨entry, hentry, heq⟩ | ⟨j, inner, c, hpath, hc, hv⟩)
      · obtain ⟨inner, w⟩ := entry
        cases heq
        exact ⟨0, inner, child, rfl, List.getElem?_cons_zero,
          (WidgetBase.mem_childrenFirst child inner w).mp hentry⟩
      · refine ⟨j + 1, inner, c, ?_, ?_, hv⟩
        · rw [hpath, Nat.add_assoc, Nat.add_comm 1 j]
        · rw [List.getElem?_cons_succ]
          exact hc
    · rintro ⟨j, inner, c, hpath, hc, hv⟩
      cases j with
      | zero =>
        left
        rw [List.getElem?_cons_zero] at hc
        cases hc
        exact ⟨(inner, v), (WidgetBase.mem_childrenFirst child inner v).mpr hv, by rw [hpath]; rfl⟩
      | succ j =>
        right
        rw [List.getElem?_cons_succ] at hc
        refine ⟨j, inner, c, ?_, hc, hv⟩
        rw [hpath, Nat.add_assoc, Nat.add_comm 1 j]
end

/-- C20: `GetWidgetPointIsInside` returns the path of the first entry, in the order that
lists the widgets of the children, in declaration order, before the widget itself, whose
bounds contain the point; that order lists exactly the widgets of the tree, each with the
path that leads to it; and no widget is returned exactly when the bounds of no widget of the
tree contain the point. -/
theorem WidgetBase.GetWidgetPointIsInside_children_first (w : WidgetBase) (point : Vector2) :
    w.GetWidgetPointIsInside point
        = (w.childrenFirst.find?
            (fun entry => entry.2.m_bounds.IsPointOnOrInside point)).map Prod.fst
      ∧ (∀ path v, (path, v) ∈ w.childrenFirst ↔ w.at? path = some v)
      ∧ (w.GetWidgetPointIsInside point = none ↔
          ∀ path v, w.at? path = some v → v.m_bounds.IsPointOnOrInside point = false) := by
  refine ⟨WidgetBase.GetWidgetPointIsInside_eq_find point w,
    WidgetBase.mem_childrenFirst w, ?_⟩
  rw [WidgetBase.GetWidgetPointIsInside_eq_find point w, Option.map_eq_none',
    List.find?_eq_none]
  constructor
  · intro h path v hv
    have := h (path, v) ((WidgetBase.mem_childrenFirst w path v).mpr hv)
    exact Bool.eq_false_iff.mpr this
  · intro h entry hentry
    obtain ⟨path, v⟩ := entry
    exact Bool.eq_false_iff.mp (h path v ((WidgetBase.mem_childrenFirst w path v).mp hentry))

/-! ### `BuildFromXMLNode` (C16) -/

theorem NamedProperties.Get_Set_self (bag : NamedProperties) (name : String)
    (value : PropertyValue) : (NamedProperties.Set bag name value).Get name = some value := by
  induction bag with
  | nil =>
    show List.lookup name [(name, value)] = some value
    rw [List.lookup_cons, beq_self_eq_true]
  | cons entry rest ih =>
    obtain ⟨key, old⟩ := entry
    rw [NamedProperties.Set]
    by_cases hkey : key = name
    · rw [if_pos hkey, hkey]
      show List.lookup name ((name, value) :: rest) = some value
      rw [List.lookup_cons, beq_self_eq_true]
    · rw [if_neg hkey]
      show List.lookup name ((key, old) :: NamedProperties.Set rest name value) = some value
      have hne : (name == key) = false := beq_false_of_ne (fun h => hkey h.symm)
      rw [List.lookup_cons, hne]
      exact ih

/-- C16: whatever the node holds, `BuildFromXMLNode` leaves the `Size` property at
`Vector2::ONE` (line 187 stores it after the attribute was read). A node whose `Size`
attribute reads as (2, 3) gives `Size` (1, 1), and a node without attributes turns a `Size`
that was (2, 3) before the call into (1, 1). -/
theorem WidgetBase.BuildFromXMLNode_resets_size :
    (∀ (ui : UIEnv) (node : XMLNode) (w : WidgetBase),
        (WidgetBase.BuildFromXMLNode ui node [] w).m_propertiesForAllStates.Get "Size"
          = some (.vector2 Vector2.ONE))
      ∧ exampleUI.Vector2_CreateFromString "2,3" = ⟨2, 3⟩
      ∧ (WidgetBase.BuildFromXMLNode exampleUI ⟨[("Size", "2,3")]⟩ []
          (activeWidget "button" [])).m_propertiesForAllStates.Get "Size"
          = some (.vector2 ⟨1, 1⟩)
      ∧ sizedWidget.m_propertiesForAllStates.Get "Size" = some (.vector2 ⟨2, 3⟩)
      ∧ (WidgetBase.BuildFromXMLNode exampleUI ⟨[]⟩ []
          sizedWidget).m_propertiesForAllStates.Get "Size"
          = some (.vector2 ⟨1, 1⟩) := by
  have hall : ∀ (ui : UIEnv) (node : XMLNode) (w : WidgetBase),
      (WidgetBase.BuildFromXMLNode ui node [] w).m_propertiesForAllStates.Get "Size"
        = some (.vector2 Vector2.ONE) := by
    intro ui node w
    cases w
    rw [WidgetBase.BuildFromXMLNode]
    exact NamedProperties.Get_Set_self _ _ _
  exact ⟨hall, by decide, hall _ _ _, by decide, hall _ _ _⟩

/-! ### `GetSmallestBoundsAroundChildren` (C21) -/

theorem ite_lt_eq_min (value smallest : ℚ) :
    (if value < smallest then value else smallest) = min smallest value := by
  rw [min_def]
  by_cases h : value < smallest
  · rw [if_pos h, if_neg (not_le.mpr h)]
  · rw [if_neg h, if_pos (not_lt.mp h)]

theorem ite_gt_eq_max (value largest : ℚ) :
    (if value > largest then value else largest) = max largest value := by
  rw [max_def]
  by_cases h : largest < value
  · rw [if_pos h, if_pos (le_of_lt h)]
  · rw [if_neg h]
    by_cases hle : largest ≤ value
    · rw [if_pos hle]
      exact le_antisymm hle (not_lt.mp h)
    · rw [if_neg hle]

theorem GetSmallestBoundsLoop_eq (children : List WidgetBase) :
    ∀ smallestBounds : AABB2,
      GetSmallestBoundsLoop children smallestBounds
        = ⟨⟨(children.map (fun child => child.m_bounds.mins.x)).foldl min smallestBounds.mins.x,
            (children.map (fun child => child.m_bounds.mins.y)).foldl min smallestBounds.mins.y⟩,
           ⟨(children.map (fun child => child.m_bounds.maxs.x)).foldl max smallestBounds.maxs.x,
            (children.map (fun child => child.m_bounds.maxs.y)).foldl max
              smallestBounds.maxs.y⟩⟩ := by
  induction children with
  | nil =>
    intro smallestBounds
    rfl
  | cons child rest ih =>
    intro smallestBounds
    rw [GetSmallestBoundsLoop, ih]
    simp only [WidgetBase.GetBounds, ite_lt_eq_min, ite_gt_eq_max, List.map_cons,
      List.foldl_cons]

theorem foldl_min_spec (values : List ℚ) :
    ∀ start : ℚ, IsMinimumOf (values.foldl min start) (start :: values) := by
  induction values with
  | nil =>
    intro start
    exact ⟨List.mem_singleton.mpr rfl, fun other h => le_of_eq (List.mem_singleton.mp h).symm⟩
  | cons value rest ih =>
    intro start
    rw [List.foldl_cons]
    obtain ⟨hmem, hle⟩ := ih (min start value)
    constructor
    · rcases List.mem_cons.mp hmem with h | h
      · rw [h]
        rcases min_choice start value with hmin | hmin
        · rw [hmin]
          exact List.mem_cons_self _ _
        · rw [hmin]
          exact List.mem_cons_of_mem _ (List.mem_cons_self _ _)
      · exact List.mem_cons_of_mem _ (List.mem_cons_of_mem _ h)
    · intro other hother
      have hfirst := hle (min start value) (List.mem_cons_self _ _)
      rcases List.mem_cons.mp hother with h | h
      · rw [h]
        exact le_trans hfirst (min_le_left _ _)
      · rcases List.mem_cons.mp h with h | h
        · rw [h]
          exact le_trans hfirst (min_le_right _ _)
        · exact hle other (List.mem_cons_of_mem _ h)

theorem foldl_max_spec (values : List ℚ) :
    ∀ start : ℚ, IsMaximumOf (values.foldl max start) (start :: values) := by
  induction values with
  | nil =>
    intro start
    exact ⟨List.mem_singleton.mpr rfl, fun other h => le_of_eq (List.mem_singleton.mp h)⟩
  | cons value rest ih =>
    intro start
    rw [List.foldl_cons]
    obtain ⟨hmem, hle⟩ := ih (max start value)
    constructor
    · rcases List.mem_cons.mp hmem with h | h
      · rw [h]
        rcases max_choice start value with hmax | hmax
        · rw [hmax]
          exact List.mem_cons_self _ _
        · rw [hmax]
          exact List.mem_cons_of_mem _ (List.mem_cons_self _ _)
      · exact List.mem_cons_of_mem _ (List.mem_cons_of_mem _ h)
    · intro other hother
      have hfirst := hle (max start value) (List.mem_cons_self _ _)
      rcases List.mem_cons.mp hother with h | h
      · rw [h]
        exact le_trans (le_max_left _ _) hfirst
      · rcases List.mem_cons.mp h with h | h
        · rw [h]
          exact le_trans (le_max_right _ _) hfirst
        · exact hle other (List.mem_cons_of_mem _ h)

theorem IsMinimumOf_cons_self (value first : ℚ) (rest : List ℚ)
    (h : IsMinimumOf value (first :: first :: rest)) : IsMinimumOf value (first :: rest) := by
  obtain ⟨hmem, hle⟩ := h
  refine ⟨?_, fun other hother => hle other (List.mem_cons_of_mem _ hother)⟩
  rcases List.mem_cons.mp hmem with h | h
  · rw [h]
    exact List.mem_cons_self _ _
  · exact h

theorem IsMaximumOf_cons_self (value first : ℚ) (rest : List ℚ)
    (h : IsMaximumOf value (first :: first :: rest)) : IsMaximumOf value (first :: rest) := by
  obtain ⟨hmem, hle⟩ := h
  refine ⟨?_, fun other hother => hle other (List.mem_cons_of_mem _ hother)⟩
  rcases List.mem_cons.mp hmem with h | h
  · rw [h]
    exact List.mem_cons_self _ _
  · exact h

theorem GetSmallestBoundsAroundChildren_extremes (w : WidgetBase) (h : w.m_children ≠ []) :
    IsMinimumOf w.GetSmallestBoundsAroundChildren.mins.x
        (w.m_children.map (fun child => child.m_bounds.mins.x))
      ∧ IsMinimumOf w.GetSmallestBoundsAroundChildren.mins.y
        (w.m_children.map (fun child => child.m_bounds.mins.y))
      ∧ IsMaximumOf w.GetSmallestBoundsAroundChildren.maxs.x
        (w.m_children.map (fun child => child.m_bounds.maxs.x))
      ∧ IsMaximumOf w.GetSmallestBoundsAroundChildren.maxs.y
        (w.m_children.map (fun child => child.m_bounds.maxs.y)) := by
  rw [WidgetBase.GetSmallestBoundsAroundChildren]
  cases hchildren : w.m_children with
  | nil => exact absurd hchildren h
  | cons first rest =>
    rw [GetSmallestBoundsLoop_eq]
    exact ⟨IsMinimumOf_cons_self _ _ _ (foldl_min_spec _ _),
      IsMinimumOf_cons_self _ _ _ (foldl_min_spec _ _),
      IsMaximumOf_cons_self _ _ _ (foldl_max_spec _ _),
      IsMaximumOf_cons_self _ _ _ (foldl_max_spec _ _)⟩

/-- C21: for a widget with at least one child, the mins of the rectangle that
`GetSmallestBoundsAroundChildren` returns are, on each axis, the least of the mins of the
children and its maxs the greatest of their maxs; the rectangle contains the bounds of every
child, every point on or inside the bounds of a child is on or inside it, and every rectangle
that contains the bounds of all children contains it. For a widget without children the
method returns the rectangle from (0,0) to (0,0). -/
theorem WidgetBase.GetSmallestBoundsAroundChildren_minimal (w : WidgetBase) :
    (w.m_children = [] →
        w.GetSmallestBoundsAroundChildren = ⟨Vector2.ZERO, Vector2.ZERO⟩)
      ∧ (w.m_children ≠ [] →
        (IsMinimumOf w.GetSmallestBoundsAroundChildren.mins.x
            (w.m_children.map (fun child => child.m_bounds.mins.x))
          ∧ IsMinimumOf w.GetSmallestBoundsAroundChildren.mins.y
            (w.m_children.map (fun child => child.m_bounds.mins.y))
          ∧ IsMaximumOf w.GetSmallestBoundsAroundChildren.maxs.x
            (w.m_children.map (fun child => child.m_bounds.maxs.x))
          ∧ IsMaximumOf w.GetSmallestBoundsAroundChildren.maxs.y
            (w.m_children.map (fun child => child.m_bounds.maxs.y)))
        ∧ (∀ child ∈ w.m_children,
            w.GetSmallestBoundsAroundChildren.Contains child.m_bounds)
        ∧ (∀ child ∈ w.m_children, ∀ point : Vector2,
            child.m_bounds.IsPointOnOrInside point = true →
              w.GetSmallestBoundsAroundChildren.IsPointOnOrInside point = true)
        ∧ (∀ smaller : AABB2,
            (∀ child ∈ w.m_children, smaller.Contains child.m_bounds) →
              smaller.Contains w.GetSmallestBoundsAroundChildren)) := by
  constructor
  · intro h
    rw [WidgetBase.GetSmallestBoundsAroundChildren, h]
    rfl
  · intro h
    have hext := GetSmallestBoundsAroundChildren_extremes w h
    obtain ⟨⟨hminx, hlex⟩, ⟨hminy, hley⟩, ⟨hmaxx, hgex⟩, ⟨hmaxy, hgey⟩⟩ := hext
    have hcontains : ∀ child ∈ w.m_children,
        w.GetSmallestBoundsAroundChildren.Contains child.m_bounds := by
      intro child hchild
      exact ⟨hlex _ (List.mem_map_of_mem _ hchild), hley _ (List.mem_map_of_mem _ hchild),
        hgex _ (List.mem_map_of_mem _ hchild), hgey _ (List.mem_map_of_mem _ hchild)⟩
    refine ⟨GetSmallestBoundsAroundChildren_extremes w h, hcontains, ?_, ?_⟩
    · intro child hchild point hpoint
      obtain ⟨h1, h2, h3, h4⟩ := hcontains child hchild
      rw [AABB2.IsPointOnOrInside, decide_eq_true_eq] at hpoint ⊢
      obtain ⟨p1, p2, p3, p4⟩ := hpoint
      exact ⟨le_trans h1 p1, le_trans p2 h3, le_trans h2 p3, le_trans p4 h4⟩
    · intro smaller hsmaller
      obtain ⟨cx, hcx, hcxeq⟩ := List.mem_map.mp hminx
      obtain ⟨cy, hcy, hcyeq⟩ := List.mem_map.mp hminy
      obtain ⟨dx, hdx, hdxeq⟩ := List.mem_map.mp hmaxx
      obtain ⟨dy, hdy, hdyeq⟩ := List.mem_map.mp hmaxy
      refine ⟨?_, ?_, ?_, ?_⟩
      · rw [← hcxeq]
        exact (hsmaller cx hcx).1
      · rw [← hcyeq]
        exact (hsmaller cy hcy).2.1
      · rw [← hdxeq]
        exact (hsmaller dx hdx).2.2.1
      · rw [← hdyeq]
        exact (hsmaller dy hdy).2.2.2

/-- C21 at a widget without children and at the example parent, whose children have the
bounds (0,0)-(1,1) and (2,-1)-(3,1/2): the method returns (0,-1)-(3,1), which contains
both. -/
theorem WidgetBase.GetSmallestBoundsAroundChildren_minimal_witness :
    (boundedWidget "leaf" ⟨⟨0, 0⟩, ⟨1, 1⟩⟩ []).GetSmallestBoundsAroundChildren
        = ⟨Vector2.ZERO, Vector2.ZERO⟩
      ∧ exampleParent.m_children ≠ []
      ∧ exampleParent.GetSmallestBoundsAroundChildren = ⟨⟨0, -1⟩, ⟨3, 1⟩⟩
      ∧ (∀ child ∈ exampleParent.m_children,
          exampleParent.GetSmallestBoundsAroundChildren.Contains child.m_bounds) :=
  ⟨(WidgetBase.GetSmallestBoundsAroundChildren_minimal
      (boundedWidget "leaf" ⟨⟨0, 0⟩, ⟨1, 1⟩⟩ [])).1 rfl,
    List.cons_ne_nil _ _,
    by with_unfolding_all decide,
    ((WidgetBase.GetSmallestBoundsAroundChildren_minimal exampleParent).2
      (List.cons_ne_nil _ _)).2.1⟩

end Engine
